import Mathlib

/-!
Verification development for the OpenAI-compatible gateway that drives a CLI
assistant backend.  Each Python service relevant to the checked claims is
shallowly embedded: datetimes become a calendar structure with a linear
seconds scale, dictionaries become association lists, fallible code returns
`Except`/`Option`, and the process clock is passed explicitly.
-/

namespace CApi

/-! ## Calendar / datetime model

A UTC (or naive) `datetime.datetime` at second granularity.  Python datetime
comparison and subtraction are linear-time operations; they are embedded
through `toSec`, the proleptic-Gregorian second count, which agrees with
Python's ordering and `timedelta.total_seconds` on valid datetimes. -/

structure DT where
  year : Nat
  month : Nat
  day : Nat
  hour : Nat
  minute : Nat
  second : Nat
deriving Repr, DecidableEq

/-- Gregorian leap-year test (as Python's `calendar.isleap`). -/
def is_leap (y : Nat) : Bool := y % 4 == 0 && (y % 100 != 0 || y % 400 == 0)

/-- Length of month `m` (1..12) of year `y` in days. -/
def days_in_month (y m : Nat) : Nat :=
  if m = 2 then (if is_leap y then 29 else 28)
  else if m = 4 ∨ m = 6 ∨ m = 9 ∨ m = 11 then 30
  else 31

/-- Days in year `y` before the first day of month `m`. -/
def days_before_month (y : Nat) : Nat → Nat
  | 0 => 0
  | m + 1 => if m = 0 then 0 else days_before_month y m + days_in_month y m

/-- Days before January 1 of year `y` counting from year 1
(`datetime.toordinal` style). -/
def days_before_year (y : Nat) : Nat :=
  365 * (y - 1) + ((y - 1) / 4 + (y - 1) / 400 - (y - 1) / 100)

/-- Proleptic-Gregorian ordinal of the date part (day 0 = 0001-01-01). -/
def to_ordinal (d : DT) : Nat :=
  days_before_year d.year + days_before_month d.year d.month + (d.day - 1)

/-- Seconds on the linear time scale; Python datetime ordering and
`timedelta` arithmetic are embedded through this map. -/
def DT.toSec (d : DT) : Nat :=
  86400 * to_ordinal d + 3600 * d.hour + 60 * d.minute + d.second

/-- A structurally valid datetime (what `datetime.datetime` can hold). -/
def DT.Valid (d : DT) : Prop :=
  1 ≤ d.year ∧ 1 ≤ d.month ∧ d.month ≤ 12 ∧
  1 ≤ d.day ∧ d.day ≤ days_in_month d.year d.month ∧
  d.hour < 24 ∧ d.minute < 60 ∧ d.second < 60

instance (d : DT) : Decidable d.Valid := by unfold DT.Valid; infer_instance

/-- `d.replace(hour=0, minute=0, second=0, microsecond=0)`. -/
def DT.midnight (d : DT) : DT := { d with hour := 0, minute := 0, second := 0 }

/-- `d.replace(day=1, hour=0, minute=0, second=0, microsecond=0)`. -/
def DT.firstOfMonth (d : DT) : DT :=
  { d with day := 1, hour := 0, minute := 0, second := 0 }

/-- `d + timedelta(days=1)` on a valid datetime: the calendar successor of
the date part, keeping the time fields. -/
def DT.nextDay (d : DT) : DT :=
  if d.day < days_in_month d.year d.month then { d with day := d.day + 1 }
  else if d.month < 12 then { d with month := d.month + 1, day := 1 }
  else { d with year := d.year + 1, month := 1, day := 1 }

/-! ## Python dict as an association list

All dictionaries of the services are embedded the same way: unique keys,
insertion order preserved, `d[k] = v` replaces in place, `del d[k]` /
key-filtered rebuilds erase. -/

def alookup {κ β : Type} [BEq κ] (l : List (κ × β)) (k : κ) : Option β :=
  (l.find? (fun e => e.1 == k)).map (fun e => e.2)

def ainsert {κ β : Type} [BEq κ] (l : List (κ × β)) (k : κ) (v : β) :
    List (κ × β) :=
  if l.any (fun e => e.1 == k) then
    l.map (fun e => if e.1 == k then (k, v) else e)
  else l ++ [(k, v)]

def aerase {κ β : Type} [BEq κ] (l : List (κ × β)) (k : κ) : List (κ × β) :=
  l.filter (fun e => e.1 != k)

/-! ## API key models (`src/models/api_key.py`) -/

inductive RateLimitPeriod where
  | day
  | month
deriving Repr, DecidableEq

structure APIKeyConfig where
  key : String
  /-- `max_requests`, validated `gt=0` by pydantic. -/
  max_requests : Nat
  period : RateLimitPeriod
deriving Repr, DecidableEq

structure APIKeyUsage where
  api_key : String
  current_period_requests : Nat
  period_start : DT
  period_end : DT
  last_used : Option DT
deriving Repr, DecidableEq

/-- `APIKeyUsage.is_period_expired`: `now > self.period_end`. -/
def APIKeyUsage.is_period_expired (u : APIKeyUsage) (now : DT) : Bool :=
  u.period_end.toSec < now.toSec

/-- `APIKeyUsage.can_make_request`. -/
def APIKeyUsage.can_make_request (u : APIKeyUsage) (maxRequests : Nat) : Bool :=
  u.current_period_requests < maxRequests

/-- `APIKeyUsage.record_request`. -/
def APIKeyUsage.record_request (u : APIKeyUsage) (now : DT) : APIKeyUsage :=
  { u with current_period_requests := u.current_period_requests + 1,
           last_used := some now }

/-- `APIKeyUsage.reset_period`. -/
def APIKeyUsage.reset_period (u : APIKeyUsage) (newStart newEnd : DT) : APIKeyUsage :=
  { u with current_period_requests := 0,
           period_start := newStart, period_end := newEnd }

/-- The error dictionary built by `APIKeyValidationError` /
`OpenAIErrorResponse`: message, type, code, and an optional
`retry_after` entry. -/
structure ErrorBody where
  message : String
  etype : String
  code : String
  retry_after : Option Int
deriving Repr, DecidableEq

/-- `APIKeyValidationError.invalid_key()`. -/
def invalid_key_error : ErrorBody :=
  { message := "Invalid API key provided",
    etype := "invalid_api_key", code := "invalid_api_key", retry_after := none }

/-- `APIKeyValidationError.rate_limit_exceeded(retry_after)`: the
`retry_after` entry is added only under `if retry_after:`, i.e. only when
the integer is non-zero (Python truthiness). -/
def rate_limit_exceeded_error (retryAfter : Int) : ErrorBody :=
  { message := "Rate limit exceeded for this API key",
    etype := "rate_limit_exceeded", code := "rate_limit_exceeded",
    retry_after := if retryAfter = 0 then none else some retryAfter }

/-! ## Key & quota service (`src/services/api_key_service.py`) -/

/-- Gateway configuration slice used by the key service. -/
structure KeyServiceConfig where
  api_key_enabled : Bool
  api_keys : List APIKeyConfig

/-- `Config.get_api_key_config`: first configured entry with that key. -/
def get_api_key_config (cfg : KeyServiceConfig) (apiKey : String) : Option APIKeyConfig :=
  cfg.api_keys.find? (fun kc => kc.key == apiKey)

/-- The `_usage_storage` dict, `key -> APIKeyUsage`. -/
abbrev UsageStorage := List (String × APIKeyUsage)

def storageLookup (st : UsageStorage) (k : String) : Option APIKeyUsage :=
  alookup st k

def storageInsert (st : UsageStorage) (k : String) (v : APIKeyUsage) : UsageStorage :=
  ainsert st k v

/-- `APIKeyService._calculate_period_bounds` with the call-time clock made
explicit. -/
def calculate_period_bounds (period : RateLimitPeriod) (now : DT) : DT × DT :=
  match period with
  | .day => (now.midnight, now.midnight.nextDay)
  | .month =>
    let start := now.firstOfMonth
    let stop :=
      if now.month = 12 then
        { now with year := now.year + 1, month := 1, day := 1,
                   hour := 0, minute := 0, second := 0 }
      else
        { now with month := now.month + 1, day := 1,
                   hour := 0, minute := 0, second := 0 }
    (start, stop)

/-- `APIKeyService._get_or_create_usage`. -/
def get_or_create_usage (kc : APIKeyConfig) (now : DT) (st : UsageStorage) :
    APIKeyUsage × UsageStorage :=
  match storageLookup st kc.key with
  | none =>
    let pb := calculate_period_bounds kc.period now
    let usage : APIKeyUsage :=
      { api_key := kc.key, current_period_requests := 0,
        period_start := pb.1, period_end := pb.2, last_used := none }
    (usage, storageInsert st kc.key usage)
  | some usage =>
    if usage.is_period_expired now then
      let pb := calculate_period_bounds kc.period now
      let usage2 := usage.reset_period pb.1 pb.2
      (usage2, storageInsert st kc.key usage2)
    else (usage, st)

/-- `APIKeyService.validate_api_key`; returns the `(ok, error)` pair and the
updated usage storage. -/
def validate_api_key (cfg : KeyServiceConfig) (st : UsageStorage)
    (apiKey : String) (now : DT) : (Bool × Option ErrorBody) × UsageStorage :=
  if !cfg.api_key_enabled then ((true, none), st)
  else
    match get_api_key_config cfg apiKey with
    | none => ((false, some invalid_key_error), st)
    | some kc =>
      let gu := get_or_create_usage kc now st
      if !gu.1.can_make_request kc.max_requests then
        let retryAfter : Int := (gu.1.period_end.toSec : Int) - (now.toSec : Int)
        ((false, some (rate_limit_exceeded_error retryAfter)), gu.2)
      else
        let usage2 := gu.1.record_request now
        ((true, none), storageInsert gu.2 kc.key usage2)

/-- A sequence of validation calls for one key at the given clock readings;
returns the call results in order and the final storage. -/
def validate_seq (cfg : KeyServiceConfig) (apiKey : String) :
    List DT → UsageStorage → List (Bool × Option ErrorBody) × UsageStorage
  | [], st => ([], st)
  | t :: ts, st =>
    let r := validate_api_key cfg st apiKey t
    let rest := validate_seq cfg apiKey ts r.2
    (r.1 :: rest.1, rest.2)

/-! ## Session model (`src/models/session.py`) -/

structure Session where
  session_id : String
  created_at : DT
  last_activity : DT
  claude_session_id : Option String
  message_count : Nat
  is_active : Bool
  claude_working_dir : Option String
  timeout_minutes : Nat
deriving Repr, DecidableEq

/-- `Session.update_activity`: stamp the clock and bump the message count. -/
def Session.update_activity (s : Session) (now : DT) : Session :=
  { s with last_activity := now, message_count := s.message_count + 1 }

/-- `Session.is_expired`: `now > last_activity + timedelta(minutes=timeout_minutes)`. -/
def Session.is_expired (s : Session) (now : DT) : Bool :=
  s.last_activity.toSec + 60 * s.timeout_minutes < now.toSec

/-- The fields of a `SessionCreateRequest` that the session manager uses. -/
structure SessionCreateRequest where
  session_id : Option String
  claude_working_dir : Option String
  timeout_minutes : Nat
deriving Repr, DecidableEq

/-- `SessionCreateRequest.create_session`; `genId` stands for the
`session_<12 hex>` identifier drawn when no id was supplied, `now` for the
`datetime.now()` default factories. -/
def SessionCreateRequest.create_session (r : SessionCreateRequest)
    (genId : String) (now : DT) : Session :=
  { session_id := r.session_id.getD genId,
    created_at := now, last_activity := now,
    claude_session_id := none, message_count := 0, is_active := true,
    claude_working_dir := r.claude_working_dir,
    timeout_minutes := r.timeout_minutes }

/-! ## Durable session store (`src/services/database.py`)

The store keeps `last_activity` as an ISO-format text column.
`DatabaseManager.get_session` parses that text back into a `datetime`
before returning the row.  `TimeVal` distinguishes the two Python runtime
shapes a time value can take — an ISO string (carrying the instant it
denotes) or an already-converted `datetime` — because
`SessionManager.get_or_create_session` feeds the latter into
`datetime.fromisoformat`, which only accepts the former. -/

inductive TimeVal where
  | isoStr (d : DT)
  | pyDt (d : DT)
deriving Repr, DecidableEq

inductive PyErr where
  | typeError
  | sessionError
deriving Repr, DecidableEq

/-- `datetime.fromisoformat`: parses an ISO string; raises `TypeError` on a
non-string argument (such as a `datetime`). -/
def from_isoformat : TimeVal → Except PyErr DT
  | .isoStr d => .ok d
  | .pyDt _ => .error .typeError

/-- A persisted `sessions` row (the columns the manager reads back). -/
structure DbRow where
  claude_session_id : Option String
  claude_working_dir : String
  created_at : DT
  last_activity : DT
  timeout_minutes : Nat
  is_active : Bool
deriving Repr, DecidableEq

/-- The row dictionary as `DatabaseManager.get_session` returns it: the
`last_activity` column already converted to a `datetime`. -/
structure DbRowView where
  claude_session_id : Option String
  claude_working_dir : String
  last_activity : TimeVal
deriving Repr, DecidableEq

abbrev DbTable := List (String × DbRow)

def dbLookup (db : DbTable) (k : String) : Option DbRow :=
  alookup db k

/-- `DatabaseManager.create_session`: a plain INSERT; a duplicate primary
key raises inside the guarded block and the call degrades to `False`
leaving the table unchanged. -/
def db_create_session (db : DbTable) (k : String) (row : DbRow) : DbTable :=
  if db.any (fun e => e.1 == k) then db else db ++ [(k, row)]

/-- `DatabaseManager.get_session`: fetch the row and convert its
`last_activity` text back into a `datetime`. -/
def db_get_session (db : DbTable) (k : String) : Option DbRowView :=
  (dbLookup db k).map (fun r =>
    { claude_session_id := r.claude_session_id,
      claude_working_dir := r.claude_working_dir,
      last_activity := TimeVal.pyDt r.last_activity })

def db_delete_session (db : DbTable) (k : String) : DbTable :=
  aerase db k

def db_update_last_activity (db : DbTable) (k : String) (la : DT) : DbTable :=
  db.map (fun e => if e.1 == k then (e.1, { e.2 with last_activity := la }) else e)

/-- `str(...)` applied to an `Optional[str]` working directory (the
manager persists `str(session.claude_working_dir)`). -/
def py_str_opt : Option String → String
  | none => "None"
  | some s => s

/-! ## Session manager (`src/services/session_manager.py`) -/

structure SMState where
  sessions : List (String × Session)
  db : DbTable
deriving Repr, DecidableEq

def memLookup (m : List (String × Session)) (k : String) : Option Session :=
  alookup m k

def memInsert (m : List (String × Session)) (k : String) (v : Session) :
    List (String × Session) :=
  ainsert m k v

def memErase (m : List (String × Session)) (k : String) : List (String × Session) :=
  aerase m k

/-- `SessionManager.remove_session`: drop the session from memory (marking
it inactive) and delete the durable row; `False` only when the id is known
to neither side. -/
def remove_session (st : SMState) (sessionId : String) : Bool × SMState :=
  match memLookup st.sessions sessionId with
  | none =>
    match dbLookup st.db sessionId with
    | none => (false, st)
    | some _ => (true, { st with db := db_delete_session st.db sessionId })
  | some _ =>
    (true, { sessions := memErase st.sessions sessionId,
             db := db_delete_session st.db sessionId })

/-- `SessionManager.get_session`: absent when not cached; a cached but
expired session is removed from memory and the durable store and reported
absent; otherwise the cached session is returned. -/
def get_session (st : SMState) (sessionId : String) (now : DT) :
    Option Session × SMState :=
  match memLookup st.sessions sessionId with
  | none => (none, st)
  | some s =>
    if s.is_expired now then (none, (remove_session st sessionId).2)
    else (some s, st)

/-- `SessionManager.create_session`. -/
def create_session (st : SMState) (req : SessionCreateRequest)
    (genId : String) (now : DT) : Except PyErr (Session × SMState) :=
  match req.session_id with
  | some rid =>
    match memLookup st.sessions rid with
    | some existing =>
      if existing.is_active then .error .sessionError
      else create_session_insert st req genId now
    | none => create_session_insert st req genId now
  | none => create_session_insert st req genId now
where
  create_session_insert (st : SMState) (req : SessionCreateRequest)
      (genId : String) (now : DT) : Except PyErr (Session × SMState) :=
    let session := req.create_session genId now
    let row : DbRow :=
      { claude_session_id := session.claude_session_id,
        claude_working_dir := py_str_opt session.claude_working_dir,
        created_at := session.created_at,
        last_activity := session.last_activity,
        timeout_minutes := session.timeout_minutes,
        is_active := session.is_active }
    .ok (session,
      { sessions := memInsert st.sessions session.session_id session,
        db := db_create_session st.db session.session_id row })

/-- `SessionManager.get_or_create_session`: memory first; on a memory miss
a durable hit rebuilds a fresh `Session`, copies the stored backend
conversation id, and then assigns
`datetime.fromisoformat(db_session['last_activity'])` — whose argument the
store has already converted to a `datetime`. -/
def get_or_create_session (st : SMState) (sessionId : Option String)
    (defaults : SessionCreateRequest) (genId : String) (now : DT) :
    Except PyErr (Session × SMState) :=
  match sessionId with
  | some sid =>
    let (cached, st1) := get_session st sid now
    match cached with
    | some s =>
      let s2 := s.update_activity now
      .ok (s2, { st1 with sessions := memInsert st1.sessions sid s2 })
    | none =>
      match db_get_session st1.db sid with
      | some view =>
        let req : SessionCreateRequest :=
          { session_id := some sid,
            claude_working_dir := some view.claude_working_dir,
            timeout_minutes := defaults.timeout_minutes }
        let session := req.create_session genId now
        let session := { session with claude_session_id := view.claude_session_id }
        match from_isoformat view.last_activity with
        | .error e => .error e
        | .ok la =>
          let session := { session with last_activity := la }
          let session2 := session.update_activity now
          let mem := memInsert st1.sessions sid session2
          .ok (session2,
            { sessions := mem,
              db := db_update_last_activity st1.db sid session2.last_activity })
      | none =>
        create_session st1 { defaults with session_id := some sid } genId now
  | none => create_session st { defaults with session_id := none } genId now

/-! ## Python string helpers -/

/-- ASCII whitespace as stripped by `str.strip()` (the Unicode-only space
characters never occur in the inputs considered here). -/
def is_py_space (c : Char) : Bool :=
  c = ' ' || c = '\t' || c = '\n' || c = '\r' || c.toNat = 11 || c.toNat = 12

/-- `str.strip()`. -/
def py_strip (s : String) : String :=
  String.mk (((s.toList.dropWhile is_py_space).reverse.dropWhile is_py_space).reverse)

/-- Truthiness of `s` combined with `s.strip()` (`s and s.strip()`):
the string is non-empty and has a non-whitespace character. -/
def py_truthy_stripped (s : String) : Bool :=
  !(s == "") && !(py_strip s == "")

/-- `str.lower()` restricted to ASCII letters (exact on the texts and
keyword lists of the classifier, which mix ASCII and CJK). -/
def py_lower (s : String) : String :=
  String.mk (s.toList.map (fun c =>
    if 'A' ≤ c && c ≤ 'Z' then Char.ofNat (c.toNat + 32) else c))

/-- Does `hay` start with `needle`? -/
def list_starts_with : List Char → List Char → Bool
  | [], _ => true
  | _ :: _, [] => false
  | a :: as1, b :: bs => a == b && list_starts_with as1 bs

/-- Does `needle` occur as a contiguous run of `hay`? -/
def list_contains (hay needle : List Char) : Bool :=
  match hay with
  | [] => needle.isEmpty
  | _ :: t => list_starts_with needle hay || list_contains t needle

/-- Python substring containment `needle in hay`. -/
def py_contains (hay needle : String) : Bool :=
  list_contains hay.toList needle.toList

/-! ## Content classifier (`src/services/claude_content_parser.py`) -/

inductive ContentType where
  | system_init | thinking | planning | tool_use | tool_result
  | execution | analysis | summary | error_handling | status_update
  | regular_text
deriving Repr, DecidableEq

def thinking_keywords : List String :=
  ["我将", "让我", "我需要", "我的思路", "我认为", "分析", "考虑",
   "策略", "方法", "approach", "strategy", "thinking", "consider"]

def planning_keywords : List String :=
  ["规划", "计划", "步骤", "任务", "框架", "plan", "step", "task",
   "framework", "structure", "organize", "TodoWrite"]

def execution_keywords : List String :=
  ["执行", "开始", "现在", "接下来", "execute", "start", "begin",
   "proceed", "WebSearch", "WebFetch", "搜索", "查找"]

def analysis_keywords : List String :=
  ["分析", "研究", "发现", "结果", "数据", "趋势", "analyze",
   "research", "findings", "results", "data", "trends"]

def error_keywords : List String :=
  ["错误", "失败", "问题", "限制", "无法", "error", "failed",
   "problem", "unable", "limitation", "API Error"]

/-- `ClaudeContentParser._classify_text_content`: lowercase the text, then
test the keyword sets in order error, planning, thinking, execution,
analysis; the keywords themselves are *not* lowercased. -/
def classify_text_content (text : String) : ContentType :=
  let tl := py_lower text
  if error_keywords.any (fun k => py_contains tl k) then .error_handling
  else if planning_keywords.any (fun k => py_contains tl k) then .planning
  else if thinking_keywords.any (fun k => py_contains tl k) then .thinking
  else if execution_keywords.any (fun k => py_contains tl k) then .execution
  else if analysis_keywords.any (fun k => py_contains tl k) then .analysis
  else .regular_text

/-! ## TodoWrite renderings -/

/-- One entry of the `todos` tool input; `.get` defaults applied
(`status` -> "pending", `content` and `activeForm` -> ""). -/
structure TodoItem where
  status : String
  content : String
  activeForm : String
deriving Repr, DecidableEq

/-- The `status_emoji` mapping with default "📝". -/
def status_emoji (status : String) : String :=
  if status = "pending" then "⏳"
  else if status = "in_progress" then "🔄"
  else if status = "completed" then "✅"
  else "📝"

/-- `ClaudeContentParser._format_todo_content`: the parser's own rendering
of a TodoWrite input — a `任务规划:` header and one `{emoji} {content}`
line per item (`activeForm` is read but unused). -/
def format_todo_content (todos : List TodoItem) : String :=
  if todos.isEmpty then "创建任务列表"
  else
    "任务规划:\n" ++
      String.intercalate "\n"
        (todos.map (fun t => status_emoji t.status ++ " " ++ t.content))

/-- `ClaudeProcess._format_todo_write_display`: the fenced task-board
rendering used when streaming TodoWrite tool calls. -/
def format_todo_write_display (todos : List TodoItem) : String :=
  if todos.isEmpty then "```\n📋 创建空任务列表\n```"
  else
    let in_progress_count := todos.countP (fun t => t.status == "in_progress")
    let completed_count := todos.countP (fun t => t.status == "completed")
    let action :=
      if in_progress_count > 0 then "更新任务列表"
      else if completed_count = todos.length then "完成任务列表"
      else "创建任务列表"
    let header :=
      "```\n📋 " ++ action ++ " (共 " ++ toString todos.length ++ " 项任务" ++
      (if completed_count > 0 then "，已完成 " ++ toString completed_count ++ " 项" else "") ++
      (if in_progress_count > 0 then "，进行中 " ++ toString in_progress_count ++ " 项" else "") ++
      ")\n"
    let body := String.join (todos.map (fun t =>
      let display := if py_truthy_stripped t.activeForm then t.activeForm else t.content
      "  " ++ status_emoji t.status ++ " " ++ display ++ "\n"))
    header ++ body ++ "```"

/-! Spec-side formulation of the task-list rendering, written from the
specification's words: action label chosen by "any item in_progress /
every item completed", display text "activeForm if non-blank else
content". -/

/-- Spec wording: the action label. -/
def spec_action_label (todos : List TodoItem) : String :=
  if todos.any (fun t => t.status == "in_progress") then "更新任务列表"
  else if todos.all (fun t => t.status == "completed") then "完成任务列表"
  else "创建任务列表"

/-- Spec wording: a string is non-blank when some character is not
whitespace. -/
def spec_non_blank (s : String) : Bool :=
  s.toList.any (fun c => !is_py_space c)

/-- Spec wording: the rendered task-list block. -/
def spec_todo_rendering (todos : List TodoItem) : String :=
  let completed := todos.countP (fun t => t.status == "completed")
  let in_progress := todos.countP (fun t => t.status == "in_progress")
  "```\n📋 " ++ spec_action_label todos ++ " (共 " ++ toString todos.length ++
    " 项任务" ++
    (if completed > 0 then "，已完成 " ++ toString completed ++ " 项" else "") ++
    (if in_progress > 0 then "，进行中 " ++ toString in_progress ++ " 项" else "") ++
    ")\n" ++
    String.join (todos.map (fun t =>
      "  " ++ status_emoji t.status ++ " " ++
        (if spec_non_blank t.activeForm then t.activeForm else t.content) ++ "\n")) ++
    "```"

/-! ## JSON values and `json.dumps`

`JVal` covers the JSON-serializable Python values the gateway builds;
`render` is `json.dumps(..., ensure_ascii=False)` with its default
separators (`", "` / `": "`) and string escaping. -/

inductive JVal where
  | null
  | jbool (b : Bool)
  | jnum (n : Int)
  | jstr (s : String)
  | jarr (elems : List JVal)
  | jobj (fields : List (String × JVal))

/-- A lowercase hexadecimal digit. -/
def hex_digit : Nat → Char
  | 0 => '0' | 1 => '1' | 2 => '2' | 3 => '3' | 4 => '4' | 5 => '5'
  | 6 => '6' | 7 => '7' | 8 => '8' | 9 => '9' | 10 => 'a' | 11 => 'b'
  | 12 => 'c' | 13 => 'd' | 14 => 'e' | _ => 'f'

/-- Render one string character as `json.dumps` does (`ensure_ascii=False`:
only the two-character escapes and `\u00XX` for other control characters). -/
def esc_char (c : Char) : List Char :=
  if c = '"' then ['\\', '"']
  else if c = '\\' then ['\\', '\\']
  else if c = '\n' then ['\\', 'n']
  else if c = '\t' then ['\\', 't']
  else if c = '\r' then ['\\', 'r']
  else if c.toNat = 8 then ['\\', 'b']
  else if c.toNat = 12 then ['\\', 'f']
  else if c.toNat < 32 then
    ['\\', 'u', '0', '0', hex_digit (c.toNat / 16), hex_digit (c.toNat % 16)]
  else [c]

/-- A JSON string literal (opening quote, escaped body, closing quote). -/
def render_str (s : String) : List Char :=
  '"' :: (s.toList.map esc_char).flatten ++ ['"']

/-- Decimal digits of a natural number (`fuel` bounds the recursion). -/
def render_nat_aux : Nat → Nat → List Char
  | 0, _ => []
  | fuel + 1, n =>
    if n < 10 then [hex_digit n]
    else render_nat_aux fuel (n / 10) ++ [hex_digit (n % 10)]

def render_nat (n : Nat) : List Char := render_nat_aux (n + 1) n

/-- The decimal rendering of a Python `int` as `json.dumps` emits it. -/
def render_int (n : Int) : List Char :=
  (if n < 0 then ['-'] else []) ++ render_nat n.natAbs

mutual

/-- `json.dumps(..., ensure_ascii=False)` over `JVal`, as characters, with
the default separators `", "` and `": "`. -/
def render : JVal → List Char
  | .null => "null".toList
  | .jbool b => if b then "true".toList else "false".toList
  | .jnum n => render_int n
  | .jstr s => render_str s
  | .jarr xs => '[' :: render_arr xs ++ [']']
  | .jobj fs => '\x7b' :: render_obj fs ++ ['\x7d']

/-- Array elements joined by `", "`. -/
def render_arr : List JVal → List Char
  | [] => []
  | [x] => render x
  | x :: y :: t => render x ++ ", ".toList ++ render_arr (y :: t)

/-- Object entries `"key": value` joined by `", "`. -/
def render_obj : List (String × JVal) → List Char
  | [] => []
  | [(k, v)] => render_str k ++ ": ".toList ++ render v
  | (k, v) :: e :: t =>
    render_str k ++ ": ".toList ++ render v ++ ", ".toList ++ render_obj (e :: t)

end

/-- A Python value handed to `json.dumps`: either JSON-serializable or not
(in which case `dumps` raises and the formatter falls back). -/
inductive PyData where
  | json (v : JVal)
  | notSerializable

/-- `json.dumps` as used by the stream service: a string on serializable
data, an exception (`none`) otherwise. -/
def py_json_dumps : PyData → Option String
  | .json v => some (String.mk (render v))
  | .notSerializable => none

/-- `StreamService._format_sse_data`: wrap the serialized payload in a
`data: ...\n\n` frame, substituting a fixed fallback frame when
serialization raises. -/
def format_sse_data (d : PyData) : String :=
  match py_json_dumps d with
  | some j => "data: " ++ j ++ "\n\n"
  | none => "data: \x7b\"error\": \"Failed to format response\"\x7d\n\n"

/-! ## Parsed content and structured responses
(`claude_content_parser.py` / `stream_service.py`) -/

structure ParsedContent where
  content_type : ContentType
  content : String
  metadata : JVal
  tool_info : Option JVal := none
  session_id : Option String := none

/-- `ClaudeContentParser.parse_text_content`. -/
def parse_text_content (text : String) : ParsedContent :=
  if text == "" || py_strip text == "" then
    { content_type := .regular_text, content := text, metadata := .jobj [] }
  else
    { content_type := classify_text_content text, content := text,
      metadata := .jobj
        [("text_length", .jnum text.length),
         ("line_count", .jnum ((text.toList.count '\n' : Int) + 1)),
         ("classification_method", .jstr "text_analysis")] }

def jget (v : JVal) (k : String) : Option JVal :=
  match v with
  | .jobj fs => (fs.find? (fun e => e.1 == k)).map (fun e => e.2)
  | _ => none

/-- `dict.get(k, default)`. -/
def jget_default (v : JVal) (k : String) (d : JVal) : JVal := (jget v k).getD d

/-- Python truthiness of a JSON-shaped value. -/
def jtruthy : JVal → Bool
  | .null => false
  | .jbool b => b
  | .jnum n => n != 0
  | .jstr s => s != ""
  | .jarr xs => !xs.isEmpty
  | .jobj fs => !fs.isEmpty

def opt_json : Option JVal → JVal
  | none => .null
  | some v => v

def jlen : JVal → Nat
  | .jarr xs => xs.length
  | _ => 0

/-- The pydantic `Delta` model as a dict. -/
def delta_json (role content : Option String) (excludeNone : Bool) : JVal :=
  if excludeNone then
    .jobj ((match role with | some r => [("role", JVal.jstr r)] | none => []) ++
           (match content with | some c => [("content", JVal.jstr c)] | none => []))
  else
    .jobj [("role", (role.map JVal.jstr).getD .null),
           ("content", (content.map JVal.jstr).getD .null)]

/-- The pydantic `Choice` model as a dict (`message` is always `None` on
the streaming path). -/
def choice_json (delta : JVal) (finish : Option String) (excludeNone : Bool) : JVal :=
  if excludeNone then
    .jobj ([("index", JVal.jnum 0), ("delta", delta)] ++
           (match finish with | some f => [("finish_reason", JVal.jstr f)] | none => []))
  else
    .jobj [("index", JVal.jnum 0), ("message", .null), ("delta", delta),
           ("finish_reason", (finish.map JVal.jstr).getD .null)]

/-- `ChatCompletionStreamResponse.create(...).dict(...)`: the chunk dict in
pydantic field order; `created` stands for the clock sample the default
factory takes. -/
def stream_response_json (rid model : String) (created : Int)
    (deltaRole deltaContent finish : Option String) (excludeNone : Bool) : JVal :=
  .jobj [("id", .jstr rid), ("object", .jstr "chat.completion.chunk"),
         ("created", .jnum created), ("model", .jstr model),
         ("choices", .jarr [choice_json (delta_json deltaRole deltaContent excludeNone)
                              finish excludeNone])]

/-- A structured chunk with one extra key in the delta (the
thinking/planning/execution/error branches of
`StreamService._create_structured_response` share this shape). -/
def structured_chunk_json (rid model : String) (created : Int)
    (content : String) (extraKey : String) (extraVal : JVal) : JVal :=
  .jobj [("id", .jstr rid), ("object", .jstr "chat.completion.chunk"),
         ("created", .jnum created), ("model", .jstr model),
         ("choices", .jarr
           [.jobj [("index", .jnum 0),
                   ("delta", .jobj [("content", .jstr content),
                                    (extraKey, extraVal)]),
                   ("finish_reason", .null)]])]

/-- `StreamService._create_structured_response`. -/
def create_structured_response (rid : String) (pc : ParsedContent)
    (model : String) (created : Int) : Option JVal :=
  match pc.content_type with
  | .thinking =>
    some (structured_chunk_json rid model created pc.content "thinking_process"
      (.jobj [("type", .jstr "thinking"), ("content", .jstr pc.content),
              ("metadata", pc.metadata)]))
  | .planning =>
    let base := [("type", JVal.jstr "planning"), ("content", JVal.jstr pc.content),
                 ("tool_info", opt_json pc.tool_info), ("metadata", pc.metadata)]
    let af := jget_default pc.metadata "active_forms" (.jarr [])
    let planning := if jtruthy af then base ++ [("active_forms", af)] else base
    some (structured_chunk_json rid model created pc.content "planning_process"
      (.jobj planning))
  | .tool_use =>
    some (structured_chunk_json rid model created pc.content "tool_usage"
      (.jobj [("type", .jstr "tool_use"),
              ("tool_name", match pc.tool_info with
                            | some ti => jget_default ti "tool_name" .null
                            | none => .jstr "unknown"),
              ("tool_input", match pc.tool_info with
                             | some ti => jget_default ti "tool_input" .null
                             | none => .jobj []),
              ("metadata", pc.metadata)]))
  | .execution =>
    some (structured_chunk_json rid model created pc.content "execution_process"
      (.jobj [("type", .jstr "execution"), ("content", .jstr pc.content),
              ("metadata", pc.metadata)]))
  | .error_handling =>
    some (structured_chunk_json rid model created pc.content "error_handling"
      (.jobj [("type", .jstr "error_handling"), ("content", .jstr pc.content),
              ("metadata", pc.metadata)]))
  | .regular_text =>
    some (stream_response_json rid model created none (some pc.content) none false)
  | _ => none

/-- Accumulators of `ClaudeContentParser.extract_structured_info`. -/
structure StructAcc where
  thinking : List JVal := []
  planning : List JVal := []
  tools : List JVal := []
  executionFlow : List JVal := []
  errors : List JVal := []
  analysisResults : List JVal := []
  sessionInfo : JVal := .jobj []

def session_truthy : Option String → Bool
  | none => false
  | some s => s != ""

def struct_step (acc : StructAcc) (c : ParsedContent) : StructAcc :=
  let acc :=
    match c.content_type with
    | .thinking =>
      { acc with thinking := acc.thinking ++
          [.jobj [("content", .jstr c.content), ("metadata", c.metadata)]] }
    | .planning =>
      let base := [("content", JVal.jstr c.content),
                   ("tool_info", opt_json c.tool_info), ("metadata", c.metadata)]
      let af := jget_default c.metadata "active_forms" (.jarr [])
      let entry := if jtruthy af then base ++ [("active_forms", af)] else base
      { acc with planning := acc.planning ++ [.jobj entry] }
    | .tool_use =>
      { acc with tools := acc.tools ++
          [.jobj [("tool_name", match c.tool_info with
                                | some ti => jget_default ti "tool_name" .null
                                | none => .jstr "unknown"),
                  ("tool_input", match c.tool_info with
                                 | some ti => jget_default ti "tool_input" .null
                                 | none => .jobj []),
                  ("content", .jstr c.content)]] }
    | .execution =>
      { acc with executionFlow := acc.executionFlow ++
          [.jobj [("content", .jstr c.content), ("metadata", c.metadata)]] }
    | .error_handling =>
      { acc with errors := acc.errors ++
          [.jobj [("content", .jstr c.content), ("metadata", c.metadata)]] }
    | .analysis =>
      { acc with analysisResults := acc.analysisResults ++
          [.jobj [("content", .jstr c.content), ("metadata", c.metadata)]] }
    | _ => acc
  if session_truthy c.session_id && !(jtruthy acc.sessionInfo) then
    { acc with sessionInfo :=
        JVal.jobj [("session_id", .jstr (c.session_id.getD "")),
               ("model", jget_default c.metadata "model" .null),
               ("tools_available", jget_default c.metadata "tools" (.jarr []))] }
  else acc

/-- `ClaudeContentParser.extract_structured_info`. -/
def extract_structured_info (contents : List ParsedContent) : JVal :=
  let acc := contents.foldl struct_step {}
  .jobj [("thinking_process", .jarr acc.thinking),
         ("planning_steps", .jarr acc.planning),
         ("tool_usage", .jarr acc.tools),
         ("execution_flow", .jarr acc.executionFlow),
         ("error_handling", .jarr acc.errors),
         ("analysis_results", .jarr acc.analysisResults),
         ("session_info", acc.sessionInfo)]

/-- `StreamService._create_summary_response`. -/
def create_summary_response (rid : String) (structured : JVal)
    (model : String) (created : Int) : JVal :=
  .jobj [("id", .jstr rid), ("object", .jstr "chat.completion.chunk"),
         ("created", .jnum created), ("model", .jstr model),
         ("choices", .jarr
           [.jobj [("index", .jnum 0),
                   ("delta", .jobj
                     [("claude_analysis", .jobj
                       [("thinking_process_count",
                         .jnum (jlen (jget_default structured "thinking_process" (.jarr [])))),
                        ("planning_steps_count",
                         .jnum (jlen (jget_default structured "planning_steps" (.jarr [])))),
                        ("tools_used",
                         .jarr ((match jget_default structured "tool_usage" (.jarr []) with
                                 | .jarr ts => ts
                                 | _ => []).map (fun t => jget_default t "tool_name" .null))),
                        ("execution_steps_count",
                         .jnum (jlen (jget_default structured "execution_flow" (.jarr [])))),
                        ("errors_handled",
                         .jnum (jlen (jget_default structured "error_handling" (.jarr [])))),
                        ("session_info", jget_default structured "session_info" (.jobj [])),
                        ("structured_data", structured)])]),
                   ("finish_reason", .null)]])]

/-! ## Streaming translator (`StreamService.create_claude_stream`) -/

/-- One pull from the backend line iterator: a yielded line, or an
exception raised while producing the next line. -/
inductive StreamItem where
  | line (s : String)
  | errItem (msg : String)
deriving Repr, DecidableEq

/-- The error payload emitted when a step of the stream raises. -/
def error_body_json (msg : String) : JVal :=
  .jobj [("error", .jobj [("message", .jstr msg),
                          ("type", .jstr "streaming_error"),
                          ("code", .jstr "stream_interrupted")])]

/-- The terminal SSE frame. -/
def done_frame : String := "data: [DONE]\n\n"

/-- The loop body of `create_claude_stream` after the opening role chunk:
blank lines are skipped, non-blank lines are classified and emitted as
structured chunks, the end of the stream emits the optional summary, the
stop chunk and `[DONE]`, and a raised step emits exactly the error frame. -/
def stream_loop (rid model : String) (created : Int) :
    List StreamItem → List ParsedContent → List String
  | [], acc =>
    (if !acc.isEmpty then
      [format_sse_data (.json (create_summary_response rid
        (extract_structured_info acc) model created))]
     else []) ++
    [format_sse_data (.json (stream_response_json rid model created none none
      (some "stop") true)),
     done_frame]
  | .errItem msg :: _, _ => [format_sse_data (.json (error_body_json msg))]
  | .line s :: rest, acc =>
    if py_strip s == "" then stream_loop rid model created rest acc
    else
      let pc := parse_text_content s
      (match create_structured_response rid pc model created with
       | some d => [format_sse_data (.json d)]
       | none => []) ++
      stream_loop rid model created rest (acc ++ [pc])

/-- `StreamService.create_claude_stream`: the full output frame sequence. -/
def create_claude_stream (rid model : String) (created : Int)
    (items : List StreamItem) : List String :=
  format_sse_data (.json (stream_response_json rid model created
    (some "assistant") (some "") none true)) ::
  stream_loop rid model created items []

/-! ## Byte-at-a-time UTF-8 reader (`ClaudeProcess.send_message`)

The incremental decode stage of the stdout reader: one byte is appended to
`byte_buffer`; the whole buffer is decoded; on success the text moves to
the line buffer, on failure the bytes are kept unless the buffer exceeds 4
bytes, in which case it is discarded with a warning.  Characters are
Unicode scalar values as `Nat`. -/

/-- Strict UTF-8: decode one scalar from the front (Python `codecs`
semantics — continuation ranges, no overlong forms, no surrogates,
max U+10FFFF). -/
def utf8_decode_one : List Nat → Option (Nat × List Nat)
  | [] => none
  | b0 :: rest =>
    if b0 < 0x80 then some (b0, rest)
    else if b0 < 0xC2 then none
    else if b0 < 0xE0 then
      match rest with
      | b1 :: r =>
        if 0x80 ≤ b1 ∧ b1 < 0xC0 then some ((b0 - 0xC0) * 64 + (b1 - 0x80), r)
        else none
      | [] => none
    else if b0 < 0xF0 then
      match rest with
      | b1 :: b2 :: r =>
        if ((if b0 = 0xE0 then 0xA0 else 0x80) ≤ b1 ∧
            b1 < (if b0 = 0xED then 0xA0 else 0xC0)) ∧
           (0x80 ≤ b2 ∧ b2 < 0xC0) then
          some ((b0 - 0xE0) * 4096 + (b1 - 0x80) * 64 + (b2 - 0x80), r)
        else none
      | _ => none
    else if b0 < 0xF5 then
      match rest with
      | b1 :: b2 :: b3 :: r =>
        if ((if b0 = 0xF0 then 0x90 else 0x80) ≤ b1 ∧
            b1 < (if b0 = 0xF4 then 0x90 else 0xC0)) ∧
           (0x80 ≤ b2 ∧ b2 < 0xC0) ∧ (0x80 ≤ b3 ∧ b3 < 0xC0) then
          some ((b0 - 0xF0) * 0x40000 + (b1 - 0x80) * 4096 +
                (b2 - 0x80) * 64 + (b3 - 0x80), r)
        else none
      | _ => none
    else none

def utf8_decode_loop : Nat → List Nat → Option (List Nat)
  | _, [] => some []
  | 0, _ :: _ => none
  | fuel + 1, b :: bs =>
    match utf8_decode_one (b :: bs) with
    | none => none
    | some (c, rest) => (utf8_decode_loop fuel rest).map (fun cs => c :: cs)

/-- `bytes.decode('utf-8')`: all scalars, or an exception (`none`). -/
def utf8_decode (bs : List Nat) : Option (List Nat) :=
  utf8_decode_loop bs.length bs

/-- The UTF-8 encoding of scalar `c` (what the backend writes). -/
def utf8_encode (c : Nat) : List Nat :=
  if c < 0x80 then [c]
  else if c < 0x800 then [0xC0 + c / 64, 0x80 + c % 64]
  else if c < 0x10000 then
    [0xE0 + c / 4096, 0x80 + (c / 64) % 64, 0x80 + c % 64]
  else
    [0xF0 + c / 0x40000, 0x80 + (c / 4096) % 64, 0x80 + (c / 64) % 64,
     0x80 + c % 64]

/-- A Unicode scalar value (encodable codepoint). -/
def valid_scalar (c : Nat) : Prop :=
  c < 0x110000 ∧ ¬(0xD800 ≤ c ∧ c < 0xE000)

instance (c : Nat) : Decidable (valid_scalar c) := by
  unfold valid_scalar; infer_instance

structure ReaderState where
  byte_buffer : List Nat
  line_buffer : List Nat
  discards : Nat
deriving Repr, DecidableEq

/-- Processing of one byte read from the subprocess stdout
(`send_message` lines 146–156 and 249–256). -/
def read_byte_step (st : ReaderState) (b : Nat) : ReaderState :=
  let bb := st.byte_buffer ++ [b]
  match utf8_decode bb with
  | some cs => { st with byte_buffer := [], line_buffer := st.line_buffer ++ cs }
  | none =>
    if bb.length > 4 then
      { st with byte_buffer := [], discards := st.discards + 1 }
    else { st with byte_buffer := bb }

/-- Feed a byte sequence one byte at a time. -/
def read_bytes (st : ReaderState) (bs : List Nat) : ReaderState :=
  bs.foldl read_byte_step st

/-! ## Backend process manager (`ClaudeService`)

Process ids stand in for `uuid.uuid4()` via a fresh-name counter; session
(conversation) ids are `Nat`.  `startOk` models whether
`ClaudeProcess.start()` succeeds (its exception propagates after the
eviction step but before any registration). -/

structure ProcHandle where
  process_id : Nat
  is_running : Bool
deriving Repr, DecidableEq

abbrev ProcMap := List (Nat × ProcHandle)

def plookup (l : ProcMap) (k : Nat) : Option ProcHandle :=
  alookup l k

def pinsert (l : ProcMap) (k : Nat) (v : ProcHandle) : ProcMap :=
  ainsert l k v

def perase (l : ProcMap) (k : Nat) : ProcMap :=
  aerase l k

structure CSState where
  active_processes : ProcMap
  session_processes : ProcMap
  next_id : Nat
deriving Repr, DecidableEq

/-- Constructing, starting and registering a fresh `ClaudeProcess`. -/
def create_new_process (st : CSState) (sid : Option Nat) (startOk : Bool) : CSState :=
  let pid := st.next_id
  let st1 := { st with next_id := pid + 1 }
  if !startOk then st1
  else
    let p : ProcHandle := { process_id := pid, is_running := true }
    let st2 := { st1 with active_processes := pinsert st1.active_processes pid p }
    match sid with
    | some s => { st2 with session_processes := pinsert st2.session_processes s p }
    | none => st2

/-- `ClaudeService.get_or_create_process`. -/
def get_or_create_process (st : CSState) (sid : Option Nat) (startOk : Bool) : CSState :=
  match sid with
  | some s =>
    match plookup st.session_processes s with
    | some p =>
      if p.is_running then st
      else
        let st1 := { st with
          session_processes := perase st.session_processes s,
          active_processes := perase st.active_processes p.process_id }
        create_new_process st1 (some s) startOk
    | none => create_new_process st (some s) startOk
  | none => create_new_process st none startOk

/-- `ClaudeService.remove_process`. -/
def remove_process (st : CSState) (pid : Nat) : CSState :=
  match plookup st.active_processes pid with
  | none => st
  | some _ =>
    let st1 := { st with active_processes := perase st.active_processes pid }
    match (st1.session_processes.find? (fun e => e.2.process_id == pid)).map
        (fun e => e.1) with
    | some s => { st1 with session_processes := perase st1.session_processes s }
    | none => st1

/-- `ClaudeService.remove_session_process`. -/
def remove_session_process (st : CSState) (sid : Nat) : CSState :=
  match plookup st.session_processes sid with
  | none => st
  | some p =>
    { st with session_processes := perase st.session_processes sid,
              active_processes := perase st.active_processes p.process_id }

/-- `ClaudeService.cleanup_all_processes`. -/
def cleanup_all_processes (st : CSState) : CSState :=
  let st1 := (st.active_processes.map (fun e => e.1)).foldl remove_process st
  { st1 with session_processes := [] }

inductive ProcOp where
  | getOrCreate (sid : Option Nat) (startOk : Bool)
  | removeProc (pid : Nat)
  | removeSessionProc (sid : Nat)
  | cleanupAll
deriving Repr, DecidableEq

def proc_step (st : CSState) : ProcOp → CSState
  | .getOrCreate sid ok => get_or_create_process st sid ok
  | .removeProc pid => remove_process st pid
  | .removeSessionProc sid => remove_session_process st sid
  | .cleanupAll => cleanup_all_processes st

def initial_cs_state : CSState :=
  { active_processes := [], session_processes := [], next_id := 0 }

def run_proc_ops (ops : List ProcOp) : CSState :=
  ops.foldl proc_step initial_cs_state

/-- Does some pull from the backend iterator raise? -/
def has_err_item (items : List StreamItem) : Bool :=
  items.any (fun it => match it with | .errItem _ => true | .line _ => false)

/-- A pull that yielded a line (did not raise). -/
def is_line_item : StreamItem → Prop
  | .line _ => True
  | .errItem _ => False

/-- A frame whose payload is a JSON object whose first key is `"id"` — the
shape of every chunk the translator emits on its normal path. -/
def is_id_frame (f : String) : Prop :=
  ∃ x : JVal, ∃ l : List (String × JVal),
    f = format_sse_data (.json (.jobj (("id", x) :: l)))

/-- A single well-formed SSE frame: the `data: ` prefix, a payload free of
newline characters, and the blank-line terminator. -/
def well_formed_frame (f : String) : Prop :=
  ∃ p : String, f = "data: " ++ p ++ "\n\n" ∧ '\n' ∉ p.toList

/-- The registry consistency stated by claim C10: every handle indexed by
conversation id is registered in the primary registry under its own
process id. -/
def cs_invariant (st : CSState) : Prop :=
  ∀ sid p, plookup st.session_processes sid = some p →
    plookup st.active_processes p.process_id = some p

/-- Auxiliary invariant carried through the induction: registry
consistency, key/pid agreement, injectivity of the conversation index,
and freshness of the id counter. -/
def cs_aux_invariant (st : CSState) : Prop :=
  cs_invariant st ∧
  (∀ e ∈ st.active_processes, e.2.process_id = e.1) ∧
  (∀ e1 ∈ st.session_processes, ∀ e2 ∈ st.session_processes,
     e1.2.process_id = e2.2.process_id → e1.1 = e2.1) ∧
  (∀ e ∈ st.active_processes, e.1 < st.next_id) ∧
  (∀ e ∈ st.session_processes, e.2.process_id < st.next_id)

/-! ## Calendar arithmetic lemmas -/

theorem is_leap_iff (y : Nat) :
    is_leap y = true ↔ (y % 4 = 0 ∧ (y % 100 ≠ 0 ∨ y % 400 = 0)) := by
  unfold is_leap
  simp [Bool.and_eq_true, Bool.or_eq_true]

theorem days_in_month_pos (y m : Nat) : 1 ≤ days_in_month y m := by
  unfold days_in_month
  split
  · split <;> omega
  · split <;> omega

theorem days_before_year_succ (y : Nat) (hy : 1 ≤ y) :
    days_before_year (y + 1) =
      days_before_year y + (if is_leap y then 366 else 365) := by
  obtain ⟨k, rfl⟩ : ∃ k, y = k + 1 := ⟨y - 1, by omega⟩
  unfold days_before_year
  by_cases hl : is_leap (k + 1)
  · rw [if_pos hl]
    rw [is_leap_iff] at hl
    simp only [Nat.add_sub_cancel]
    omega
  · rw [if_neg hl]
    rw [show (is_leap (k + 1) = true ↔ _) from is_leap_iff (k + 1)] at hl
    simp only [Nat.add_sub_cancel]
    omega

theorem days_before_month_succ (y m : Nat) (hm : 1 ≤ m) :
    days_before_month y (m + 1) = days_before_month y m + days_in_month y m := by
  conv_lhs => rw [days_before_month]
  rw [if_neg (by omega)]

theorem days_before_month_12 (y : Nat) :
    days_before_month y 12 = if is_leap y then 335 else 334 := by
  by_cases hl : is_leap y <;>
    simp [days_before_month, days_in_month, hl]

theorem days_before_month_1 (y : Nat) : days_before_month y 1 = 0 := by
  simp [days_before_month]

theorem days_in_month_12 (y : Nat) : days_in_month y 12 = 31 := by
  simp [days_in_month]

theorem to_ordinal_next_day (d : DT) (hd : d.Valid) :
    to_ordinal d.nextDay = to_ordinal d + 1 := by
  obtain ⟨hy, hm1, hm2, hd1, hd2, -, -, -⟩ := hd
  unfold DT.nextDay
  by_cases h1 : d.day < days_in_month d.year d.month
  · rw [if_pos h1]
    unfold to_ordinal
    simp only
    omega
  · rw [if_neg h1]
    have hde : d.day = days_in_month d.year d.month := by omega
    by_cases h2 : d.month < 12
    · rw [if_pos h2]
      unfold to_ordinal
      simp only
      rw [days_before_month_succ d.year d.month hm1]
      have := days_in_month_pos d.year d.month
      omega
    · rw [if_neg h2]
      have hm12 : d.month = 12 := by omega
      have h31 : d.day = 31 := by rw [hde, hm12, days_in_month_12]
      unfold to_ordinal
      simp only
      rw [days_before_month_1, days_before_year_succ d.year hy, hm12,
          days_before_month_12]
      by_cases hl : is_leap d.year <;> simp [hl] <;> omega

theorem next_day_time_fields (d : DT) :
    d.nextDay.hour = d.hour ∧ d.nextDay.minute = d.minute ∧
      d.nextDay.second = d.second := by
  unfold DT.nextDay
  split
  · exact ⟨rfl, rfl, rfl⟩
  · split
    · exact ⟨rfl, rfl, rfl⟩
    · exact ⟨rfl, rfl, rfl⟩

theorem toSec_next_day (d : DT) (hd : d.Valid) :
    d.nextDay.toSec = d.toSec + 86400 := by
  obtain ⟨hh, hmn, hs⟩ := next_day_time_fields d
  unfold DT.toSec
  rw [hh, hmn, hs, to_ordinal_next_day d hd]
  ring

theorem midnight_valid (d : DT) (hd : d.Valid) : d.midnight.Valid := by
  obtain ⟨hy, hm1, hm2, hd1, hd2, -, -, -⟩ := hd
  exact ⟨hy, hm1, hm2, hd1, hd2,
    Nat.zero_lt_succ 23, Nat.zero_lt_succ 59, Nat.zero_lt_succ 59⟩

/-! ## Association list lemmas -/

theorem alookup_map_replace {κ β : Type} [BEq κ] [LawfulBEq κ]
    (l : List (κ × β)) (k : κ) (v : β)
    (h : l.any (fun e => e.1 == k) = true) :
    alookup (l.map (fun e => if e.1 == k then (k, v) else e)) k = some v := by
  induction l with
  | nil => simp at h
  | cons e t ih =>
    simp only [List.map_cons]
    cases he : (e.1 == k) with
    | true => simp [alookup, List.find?_cons]
    | false =>
      have h2 : t.any (fun e => e.1 == k) = true := by
        simpa [List.any_cons, he] using h
      simpa [alookup, List.find?_cons, he] using ih h2

theorem alookup_append_single {κ β : Type} [BEq κ] [LawfulBEq κ]
    (l : List (κ × β)) (k : κ) (v : β) :
    alookup (l ++ [(k, v)]) k = some v ∨
      (∃ e ∈ l, (e.1 == k) = true) := by
  induction l with
  | nil => left ; simp [alookup, List.find?_cons]
  | cons e t ih =>
    cases he : (e.1 == k) with
    | true => right ; exact ⟨e, List.mem_cons_self e t, he⟩
    | false =>
      rcases ih with h | ⟨e2, hm, hk⟩
      · left ; simpa [alookup, List.find?_cons, he] using h
      · right ; exact ⟨e2, List.mem_cons_of_mem e hm, hk⟩

theorem alookup_ainsert {κ β : Type} [BEq κ] [LawfulBEq κ]
    (l : List (κ × β)) (k : κ) (v : β) :
    alookup (ainsert l k v) k = some v := by
  unfold ainsert
  split
  case isTrue h => exact alookup_map_replace l k v h
  case isFalse h =>
    rcases alookup_append_single l k v with h2 | ⟨e, hm, hk⟩
    · exact h2
    · exact absurd (List.any_eq_true.mpr ⟨e, hm, hk⟩) h

theorem alookup_ainsert_ne {κ β : Type} [BEq κ] [LawfulBEq κ]
    (l : List (κ × β)) (k k2 : κ) (v : β) (hne : k2 ≠ k) :
    alookup (ainsert l k v) k2 = alookup l k2 := by
  have hkk2 : (k == k2) = false := by simp [Ne.symm hne]
  unfold ainsert
  split
  case isTrue h =>
    clear h
    induction l with
    | nil => rfl
    | cons e t ih =>
      simp only [List.map_cons]
      cases he : (e.1 == k) with
      | true =>
        have hek : e.1 = k := by simpa using he
        simp [alookup, List.find?_cons, hek, hkk2]
        simpa [alookup] using ih
      | false =>
        cases hc : (e.1 == k2) with
        | true => simp [alookup, List.find?_cons, he, hc]
        | false =>
          simp [alookup, List.find?_cons, he, hc]
          simpa [alookup] using ih
  case isFalse h =>
    clear h
    induction l with
    | nil => simp [alookup, List.find?_cons, hkk2]
    | cons e t ih =>
      simp only [List.cons_append]
      cases hc : (e.1 == k2) with
      | true => simp [alookup, List.find?_cons, hc]
      | false =>
        simp only [alookup, List.find?_cons, hc]
        simpa [alookup] using ih

theorem alookup_aerase {κ β : Type} [BEq κ] [LawfulBEq κ]
    (l : List (κ × β)) (k : κ) :
    alookup (aerase l k) k = none := by
  induction l with
  | nil => rfl
  | cons e t ih =>
    unfold aerase at ih ⊢
    rw [List.filter_cons]
    cases he : (e.1 == k) with
    | true =>
      rw [if_neg (by simp [bne, he])]
      exact ih
    | false =>
      rw [if_pos (by simp [bne, he])]
      simp only [alookup, List.find?_cons, he]
      exact ih

theorem alookup_aerase_ne {κ β : Type} [BEq κ] [LawfulBEq κ]
    (l : List (κ × β)) (k k2 : κ) (hne : k2 ≠ k) :
    alookup (aerase l k) k2 = alookup l k2 := by
  induction l with
  | nil => rfl
  | cons e t ih =>
    unfold aerase at ih ⊢
    rw [List.filter_cons]
    cases he : (e.1 == k) with
    | true =>
      have hek2 : (e.1 == k2) = false := by
        have h1 : e.1 = k := by simpa using he
        simp [h1, Ne.symm hne]
      rw [if_neg (by simp [bne, he])]
      rw [ih]
      simp [alookup, List.find?_cons, hek2]
    | false =>
      rw [if_pos (by simp [bne, he])]
      cases hc : (e.1 == k2) with
      | true => simp [alookup, List.find?_cons, hc]
      | false =>
        simp only [alookup, List.find?_cons, hc]
        simpa [alookup] using ih

/-! ## Period bound characterizations -/

theorem calc_bounds_day (now : DT) (hval : now.Valid) :
    (calculate_period_bounds .day now).1 = now.midnight ∧
    (calculate_period_bounds .day now).2.toSec = now.midnight.toSec + 86400 ∧
    (calculate_period_bounds .day now).2.hour = 0 ∧
    (calculate_period_bounds .day now).2.minute = 0 ∧
    (calculate_period_bounds .day now).2.second = 0 := by
  refine ⟨rfl, toSec_next_day now.midnight (midnight_valid now hval), ?_, ?_, ?_⟩
  · exact (next_day_time_fields now.midnight).1
  · exact (next_day_time_fields now.midnight).2.1
  · exact (next_day_time_fields now.midnight).2.2

theorem calc_bounds_month (now : DT) (hval : now.Valid) :
    (calculate_period_bounds .month now).1 = now.firstOfMonth ∧
    (calculate_period_bounds .month now).2.toSec =
      now.firstOfMonth.toSec + 86400 * days_in_month now.year now.month ∧
    (calculate_period_bounds .month now).2.day = 1 ∧
    (calculate_period_bounds .month now).2.hour = 0 ∧
    (calculate_period_bounds .month now).2.minute = 0 ∧
    (calculate_period_bounds .month now).2.second = 0 ∧
    (now.month = 12 →
      (calculate_period_bounds .month now).2.year = now.year + 1 ∧
      (calculate_period_bounds .month now).2.month = 1) ∧
    (now.month ≠ 12 →
      (calculate_period_bounds .month now).2.year = now.year ∧
      (calculate_period_bounds .month now).2.month = now.month + 1) := by
  obtain ⟨hy, hm1, hm2, hd1, hd2, -, -, -⟩ := hval
  unfold calculate_period_bounds
  dsimp only
  by_cases h12 : now.month = 12
  · rw [if_pos h12]
    refine ⟨rfl, ?_, rfl, rfl, rfl, rfl, fun _ => ⟨rfl, rfl⟩, fun hc => absurd h12 hc⟩
    unfold DT.toSec to_ordinal DT.firstOfMonth
    dsimp only
    rw [h12, days_before_month_1, days_before_month_12,
        days_before_year_succ now.year hy, days_in_month_12]
    by_cases hl : is_leap now.year <;> simp [hl] <;> omega
  · rw [if_neg h12]
    refine ⟨rfl, ?_, rfl, rfl, rfl, rfl, fun hc => absurd hc h12, fun _ => ⟨rfl, rfl⟩⟩
    unfold DT.toSec to_ordinal DT.firstOfMonth
    dsimp only
    rw [days_before_month_succ now.year now.month hm1]
    omega

/-- Claim C5: a usage record whose period has ended is reset to zero with
freshly computed bounds on the next validation; the day period runs from
the current day's midnight for exactly 86400 seconds to the next midnight,
and the month period runs from the 1st of the month for exactly
`days_in_month` days to the 1st of the next month, rolling the year at
December. -/
theorem c5_period_rollover (kc : APIKeyConfig) (u : APIKeyUsage)
    (st : UsageStorage) (now : DT) (hval : now.Valid)
    (hfound : storageLookup st kc.key = some u)
    (hexpired : u.is_period_expired now = true) :
    (get_or_create_usage kc now st).1.current_period_requests = 0 ∧
    (get_or_create_usage kc now st).1.period_start =
      (calculate_period_bounds kc.period now).1 ∧
    (get_or_create_usage kc now st).1.period_end =
      (calculate_period_bounds kc.period now).2 ∧
    storageLookup (get_or_create_usage kc now st).2 kc.key =
      some (get_or_create_usage kc now st).1 ∧
    (kc.period = RateLimitPeriod.day →
      (calculate_period_bounds kc.period now).1 = now.midnight ∧
      (calculate_period_bounds kc.period now).2.toSec =
        now.midnight.toSec + 86400 ∧
      (calculate_period_bounds kc.period now).2.hour = 0 ∧
      (calculate_period_bounds kc.period now).2.minute = 0 ∧
      (calculate_period_bounds kc.period now).2.second = 0) ∧
    (kc.period = RateLimitPeriod.month →
      (calculate_period_bounds kc.period now).1 = now.firstOfMonth ∧
      (calculate_period_bounds kc.period now).2.toSec =
        now.firstOfMonth.toSec + 86400 * days_in_month now.year now.month ∧
      (calculate_period_bounds kc.period now).2.day = 1 ∧
      (calculate_period_bounds kc.period now).2.hour = 0 ∧
      (calculate_period_bounds kc.period now).2.minute = 0 ∧
      (calculate_period_bounds kc.period now).2.second = 0 ∧
      (now.month = 12 →
        (calculate_period_bounds kc.period now).2.year = now.year + 1 ∧
        (calculate_period_bounds kc.period now).2.month = 1) ∧
      (now.month ≠ 12 →
        (calculate_period_bounds kc.period now).2.year = now.year ∧
        (calculate_period_bounds kc.period now).2.month = now.month + 1)) := by
  have key : get_or_create_usage kc now st =
      (u.reset_period (calculate_period_bounds kc.period now).1
        (calculate_period_bounds kc.period now).2,
       storageInsert st kc.key (u.reset_period
         (calculate_period_bounds kc.period now).1
         (calculate_period_bounds kc.period now).2)) := by
    unfold get_or_create_usage
    rw [hfound]
    simp [hexpired]
  rw [key]
  refine ⟨rfl, rfl, rfl, alookup_ainsert st kc.key _, ?_, ?_⟩
  · intro hp
    rw [hp]
    exact calc_bounds_day now hval
  · intro hp
    rw [hp]
    exact calc_bounds_month now hval

/-- Witness for C5 at a concrete expired day-period record. -/
theorem c5_witness :
    (get_or_create_usage ⟨"testkey1", 3, RateLimitPeriod.day⟩
        ⟨2024, 1, 15, 10, 30, 0⟩
        [("testkey1", ⟨"testkey1", 5, ⟨2024, 1, 13, 0, 0, 0⟩,
          ⟨2024, 1, 14, 0, 0, 0⟩, none⟩)]).1.current_period_requests = 0 ∧
    (get_or_create_usage ⟨"testkey1", 3, RateLimitPeriod.day⟩
        ⟨2024, 1, 15, 10, 30, 0⟩
        [("testkey1", ⟨"testkey1", 5, ⟨2024, 1, 13, 0, 0, 0⟩,
          ⟨2024, 1, 14, 0, 0, 0⟩, none⟩)]).1.period_end =
      ⟨2024, 1, 16, 0, 0, 0⟩ := by
  have h := c5_period_rollover ⟨"testkey1", 3, RateLimitPeriod.day⟩
    ⟨"testkey1", 5, ⟨2024, 1, 13, 0, 0, 0⟩, ⟨2024, 1, 14, 0, 0, 0⟩, none⟩
    [("testkey1", ⟨"testkey1", 5, ⟨2024, 1, 13, 0, 0, 0⟩,
      ⟨2024, 1, 14, 0, 0, 0⟩, none⟩)]
    ⟨2024, 1, 15, 10, 30, 0⟩ (by decide) (by decide) (by decide)
  exact ⟨h.1, by decide⟩

/-! ## Single validation call lemmas (claim C1) -/

theorem validate_one_ok (cfg : KeyServiceConfig) (kc : APIKeyConfig)
    (st : UsageStorage) (u : APIKeyUsage) (t : DT)
    (hen : cfg.api_key_enabled = true)
    (hcfg : get_api_key_config cfg kc.key = some kc)
    (hlk : storageLookup st kc.key = some u)
    (hnotexp : u.is_period_expired t = false)
    (hcan : u.current_period_requests < kc.max_requests) :
    validate_api_key cfg st kc.key t =
      ((true, none), storageInsert st kc.key (u.record_request t)) := by
  have hgu : get_or_create_usage kc t st = (u, st) := by
    unfold get_or_create_usage
    rw [hlk]
    simp [hnotexp]
  unfold validate_api_key
  rw [hen, hcfg]
  simp [hgu, APIKeyUsage.can_make_request, hcan]

theorem validate_one_limited (cfg : KeyServiceConfig) (kc : APIKeyConfig)
    (st : UsageStorage) (u : APIKeyUsage) (t : DT)
    (hen : cfg.api_key_enabled = true)
    (hcfg : get_api_key_config cfg kc.key = some kc)
    (hlk : storageLookup st kc.key = some u)
    (hnotexp : u.is_period_expired t = false)
    (hfull : kc.max_requests ≤ u.current_period_requests) :
    validate_api_key cfg st kc.key t =
      ((false, some (rate_limit_exceeded_error
        ((u.period_end.toSec : Int) - (t.toSec : Int)))), st) := by
  have hgu : get_or_create_usage kc t st = (u, st) := by
    unfold get_or_create_usage
    rw [hlk]
    simp [hnotexp]
  have hlt : ¬ u.current_period_requests < kc.max_requests := by omega
  unfold validate_api_key
  rw [hen, hcfg]
  simp [hgu, APIKeyUsage.can_make_request, hlt]

theorem validate_one_create (cfg : KeyServiceConfig) (kc : APIKeyConfig)
    (st : UsageStorage) (t : DT)
    (hen : cfg.api_key_enabled = true)
    (hcfg : get_api_key_config cfg kc.key = some kc)
    (hlk : storageLookup st kc.key = none)
    (hmax : 0 < kc.max_requests) :
    validate_api_key cfg st kc.key t =
      ((true, none),
       storageInsert (storageInsert st kc.key
         { api_key := kc.key, current_period_requests := 0,
           period_start := (calculate_period_bounds kc.period t).1,
           period_end := (calculate_period_bounds kc.period t).2,
           last_used := none })
         kc.key
         { api_key := kc.key, current_period_requests := 1,
           period_start := (calculate_period_bounds kc.period t).1,
           period_end := (calculate_period_bounds kc.period t).2,
           last_used := some t }) := by
  have hgu : get_or_create_usage kc t st =
      ({ api_key := kc.key, current_period_requests := 0,
         period_start := (calculate_period_bounds kc.period t).1,
         period_end := (calculate_period_bounds kc.period t).2,
         last_used := none },
       storageInsert st kc.key
         { api_key := kc.key, current_period_requests := 0,
           period_start := (calculate_period_bounds kc.period t).1,
           period_end := (calculate_period_bounds kc.period t).2,
           last_used := none }) := by
    unfold get_or_create_usage
    rw [hlk]
  unfold validate_api_key
  rw [hen, hcfg]
  simp [hgu, APIKeyUsage.can_make_request, APIKeyUsage.record_request, hmax]

theorem foldl_record_spec (ts : List DT) (u : APIKeyUsage) :
    (ts.foldl (fun a t => a.record_request t) u).current_period_requests =
      u.current_period_requests + ts.length ∧
    (ts.foldl (fun a t => a.record_request t) u).period_start = u.period_start ∧
    (ts.foldl (fun a t => a.record_request t) u).period_end = u.period_end ∧
    (ts.foldl (fun a t => a.record_request t) u).api_key = u.api_key := by
  induction ts generalizing u with
  | nil => simp
  | cons t ts ih =>
    simp only [List.foldl_cons, List.length_cons]
    obtain ⟨h1, h2, h3, h4⟩ := ih (u.record_request t)
    refine ⟨?_, ?_, ?_, ?_⟩
    · rw [h1]
      simp [APIKeyUsage.record_request]
      omega
    · rw [h2]
      rfl
    · rw [h3]
      rfl
    · rw [h4]
      rfl

theorem foldl_record_last (ts : List DT) (t0 : DT) (u : APIKeyUsage) :
    (ts.foldl (fun a t => a.record_request t) (u.record_request t0)).last_used =
      some (ts.getLastD t0) := by
  induction ts generalizing t0 u with
  | nil => simp [APIKeyUsage.record_request]
  | cons t ts ih =>
    simp only [List.foldl_cons, List.getLastD_cons]
    exact ih t (u.record_request t0)

theorem validate_seq_all_ok (cfg : KeyServiceConfig) (kc : APIKeyConfig)
    (hen : cfg.api_key_enabled = true)
    (hcfg : get_api_key_config cfg kc.key = some kc) :
    ∀ (ts : List DT) (u : APIKeyUsage) (st : UsageStorage),
      storageLookup st kc.key = some u →
      (∀ t ∈ ts, t.toSec ≤ u.period_end.toSec) →
      u.current_period_requests + ts.length ≤ kc.max_requests →
      (validate_seq cfg kc.key ts st).1 =
        List.replicate ts.length (true, none) ∧
      storageLookup (validate_seq cfg kc.key ts st).2 kc.key =
        some (ts.foldl (fun a t => a.record_request t) u) := by
  intro ts
  induction ts with
  | nil =>
    intro u st hlk _ _
    exact ⟨rfl, by simpa [validate_seq] using hlk⟩
  | cons t ts ih =>
    intro u st hlk hin hcap
    have hnotexp : u.is_period_expired t = false := by
      have ht := hin t (List.mem_cons_self t ts)
      unfold APIKeyUsage.is_period_expired
      simp only [decide_eq_false_iff_not]
      omega
    have hcan : u.current_period_requests < kc.max_requests := by
      simp only [List.length_cons] at hcap
      omega
    have hstep := validate_one_ok cfg kc st u t hen hcfg hlk hnotexp hcan
    have hlk2 : storageLookup (storageInsert st kc.key (u.record_request t))
        kc.key = some (u.record_request t) := alookup_ainsert st kc.key _
    obtain ⟨hres, hlkf⟩ := ih (u.record_request t)
      (storageInsert st kc.key (u.record_request t)) hlk2
      (by
        intro x hx
        have := hin x (List.mem_cons_of_mem _ hx)
        simpa [APIKeyUsage.record_request] using this)
      (by
        simp only [List.length_cons] at hcap
        simp [APIKeyUsage.record_request]
        omega)
    constructor
    · simp only [validate_seq, hstep, List.length_cons, List.replicate_succ]
      rw [hres]
    · simp only [validate_seq, hstep, List.foldl_cons]
      exact hlkf

theorem validate_seq_append (cfg : KeyServiceConfig) (key : String)
    (l1 l2 : List DT) (st : UsageStorage) :
    (validate_seq cfg key (l1 ++ l2) st).1 =
      (validate_seq cfg key l1 st).1 ++
        (validate_seq cfg key l2 (validate_seq cfg key l1 st).2).1 ∧
    (validate_seq cfg key (l1 ++ l2) st).2 =
      (validate_seq cfg key l2 (validate_seq cfg key l1 st).2).2 := by
  induction l1 generalizing st with
  | nil => simp [validate_seq]
  | cons t l1 ih =>
    simp only [List.cons_append, validate_seq, List.append_eq]
    exact ⟨by rw [(ih _).1], (ih _).2⟩

/-- Counterexample to claim C1 as stated: with `max_requests = 1` and the
second call arriving exactly at `period_end` (still inside the period —
expiry requires `now > period_end`), the rate-limit error carries *no*
`retry_after` entry although zero whole seconds remain, because the code
adds the entry under `if retry_after:` and `0` is falsy. -/
theorem c1_claim_counterexample :
    (validate_seq ⟨true, [⟨"testkey1", 1, RateLimitPeriod.day⟩]⟩ "testkey1"
        [⟨2024, 1, 15, 10, 0, 0⟩, ⟨2024, 1, 16, 0, 0, 0⟩] []).1 =
      [(true, none),
       (false, some { message := "Rate limit exceeded for this API key",
                      etype := "rate_limit_exceeded",
                      code := "rate_limit_exceeded", retry_after := none })] ∧
    (calculate_period_bounds RateLimitPeriod.day ⟨2024, 1, 15, 10, 0, 0⟩).2 =
      ⟨2024, 1, 16, 0, 0, 0⟩ := by
  constructor
  · decide
  · decide

/-- Claim C1 (amended): with key auth enabled and a fresh usage record, the
first `max_requests` calls inside one quota period all succeed (the stored
record counts them and stamps `last_used` with the latest call time), and
the following call fails with a `rate_limit_exceeded` error whose
`retry_after` is the whole number of seconds remaining until `period_end`
when that number is non-zero, the entry being omitted when it is zero. -/
theorem c1_rate_limit_amended (cfg : KeyServiceConfig) (kc : APIKeyConfig)
    (t0 : DT) (ts : List DT) (tf : DT) (st0 : UsageStorage)
    (hen : cfg.api_key_enabled = true)
    (hcfg : get_api_key_config cfg kc.key = some kc)
    (hfresh : storageLookup st0 kc.key = none)
    (hN : ts.length + 1 = kc.max_requests)
    (hin : ∀ t ∈ t0 :: ts,
      t.toSec ≤ (calculate_period_bounds kc.period t0).2.toSec)
    (hinf : tf.toSec ≤ (calculate_period_bounds kc.period t0).2.toSec) :
    (validate_seq cfg kc.key (t0 :: (ts ++ [tf])) st0).1 =
      List.replicate kc.max_requests (true, none) ++
        [(false, some (rate_limit_exceeded_error
          (((calculate_period_bounds kc.period t0).2.toSec : Int) -
           (tf.toSec : Int))))] ∧
    ∃ uf, storageLookup (validate_seq cfg kc.key (t0 :: (ts ++ [tf])) st0).2
        kc.key = some uf ∧
      uf.current_period_requests = kc.max_requests ∧
      uf.period_start = (calculate_period_bounds kc.period t0).1 ∧
      uf.period_end = (calculate_period_bounds kc.period t0).2 ∧
      uf.last_used = some (ts.getLastD t0) := by
  have hmax : 0 < kc.max_requests := by omega
  have hstep0 := validate_one_create cfg kc st0 t0 hen hcfg hfresh hmax
  set u1 : APIKeyUsage :=
    { api_key := kc.key, current_period_requests := 1,
      period_start := (calculate_period_bounds kc.period t0).1,
      period_end := (calculate_period_bounds kc.period t0).2,
      last_used := some t0 } with hu1
  set st1 : UsageStorage :=
    storageInsert (storageInsert st0 kc.key
      { api_key := kc.key, current_period_requests := 0,
        period_start := (calculate_period_bounds kc.period t0).1,
        period_end := (calculate_period_bounds kc.period t0).2,
        last_used := none }) kc.key u1 with hst1
  have hlk1 : storageLookup st1 kc.key = some u1 := alookup_ainsert _ kc.key _
  obtain ⟨hres, hlkf⟩ := validate_seq_all_ok cfg kc hen hcfg ts u1 st1 hlk1
    (by
      intro x hx
      exact hin x (List.mem_cons_of_mem _ hx))
    (by simp [hu1]; omega)
  set uf : APIKeyUsage := ts.foldl (fun a t => a.record_request t) u1 with huf
  obtain ⟨hufc, hufs, hufe, -⟩ := foldl_record_spec ts u1
  have hufc2 : uf.current_period_requests = kc.max_requests := by
    rw [huf, hufc]
    have h1c : u1.current_period_requests = 1 := rfl
    omega
  have hufe2 : uf.period_end = (calculate_period_bounds kc.period t0).2 := by
    rw [huf, hufe]
  have hnotexpf : uf.is_period_expired tf = false := by
    unfold APIKeyUsage.is_period_expired
    rw [hufe2]
    simp only [decide_eq_false_iff_not]
    omega
  have hstepf := validate_one_limited cfg kc (validate_seq cfg kc.key ts st1).2
    uf tf hen hcfg hlkf hnotexpf (by omega)
  have happ := validate_seq_append cfg kc.key ts [tf] st1
  constructor
  · show (validate_seq cfg kc.key (t0 :: (ts ++ [tf])) st0).1 = _
    simp only [validate_seq, hstep0]
    rw [happ.1, hres]
    simp only [validate_seq, hstepf]
    rw [hufe2]
    rw [show kc.max_requests = ts.length + 1 from hN.symm, List.replicate_succ]
    simp
  · refine ⟨uf, ?_, hufc2, by rw [huf, hufs, hu1], hufe2, ?_⟩
    · simp only [validate_seq, hstep0]
      rw [happ.2]
      simp only [validate_seq, hstepf]
      exact hlkf
    · rw [huf, hu1]
      exact foldl_record_last ts t0
        { api_key := kc.key, current_period_requests := 0,
          period_start := (calculate_period_bounds kc.period t0).1,
          period_end := (calculate_period_bounds kc.period t0).2,
          last_used := none }

/-- Witness for the amended C1: two allowed calls, then a rejection 30
seconds before the day boundary carrying `retry_after = 30`. -/
theorem c1_witness :
    (validate_seq ⟨true, [⟨"testkey1", 2, RateLimitPeriod.day⟩]⟩ "testkey1"
        [⟨2024, 1, 15, 9, 0, 0⟩, ⟨2024, 1, 15, 10, 0, 0⟩,
         ⟨2024, 1, 15, 23, 59, 30⟩] []).1 =
      List.replicate 2 (true, none) ++
        [(false, some (rate_limit_exceeded_error 30))] := by
  have h := c1_rate_limit_amended
    ⟨true, [⟨"testkey1", 2, RateLimitPeriod.day⟩]⟩
    ⟨"testkey1", 2, RateLimitPeriod.day⟩
    ⟨2024, 1, 15, 9, 0, 0⟩ [⟨2024, 1, 15, 10, 0, 0⟩] ⟨2024, 1, 15, 23, 59, 30⟩
    [] rfl (by decide) (by decide) (by decide) (by decide) (by decide)
  exact h.1

/-! ## Session retrieval and expiry (claim C4) -/

/-- Claim C4: a session is expired exactly when `now` is strictly later
than `last_activity + timeout_minutes`; `get_session` returns absent on a
cache miss, removes an expired cached session from both the memory cache
and the durable store and reports it absent, and returns a live cached
session unchanged. -/
theorem c4_get_session (st : SMState) (sid : String) (now : DT) :
    (∀ s : Session, s.is_expired now =
      decide (s.last_activity.toSec + 60 * s.timeout_minutes < now.toSec)) ∧
    (memLookup st.sessions sid = none → get_session st sid now = (none, st)) ∧
    (∀ s, memLookup st.sessions sid = some s → s.is_expired now = true →
      (get_session st sid now).1 = none ∧
      memLookup (get_session st sid now).2.sessions sid = none ∧
      dbLookup (get_session st sid now).2.db sid = none) ∧
    (∀ s, memLookup st.sessions sid = some s → s.is_expired now = false →
      get_session st sid now = (some s, st)) := by
  refine ⟨fun s => rfl, ?_, ?_, ?_⟩
  · intro hmiss
    unfold get_session
    rw [hmiss]
  · intro s hs hexp
    have key : get_session st sid now = (none, (remove_session st sid).2) := by
      unfold get_session
      rw [hs]
      simp [hexp]
    have key2 : (remove_session st sid).2 =
        { sessions := memErase st.sessions sid,
          db := db_delete_session st.db sid } := by
      unfold remove_session
      rw [hs]
    rw [key, key2]
    exact ⟨rfl, alookup_aerase st.sessions sid, alookup_aerase st.db sid⟩
  · intro s hs hlive
    unfold get_session
    rw [hs]
    simp [hlive]

/-- Witness for C4 at a concrete expired cached session. -/
theorem c4_witness :
    (get_session
        { sessions := [("s1",
            { session_id := "s1", created_at := ⟨2024, 1, 15, 9, 0, 0⟩,
              last_activity := ⟨2024, 1, 15, 9, 0, 0⟩,
              claude_session_id := some "conv-1", message_count := 2,
              is_active := true, claude_working_dir := none,
              timeout_minutes := 30 })],
          db := [("s1",
            { claude_session_id := some "conv-1", claude_working_dir := "None",
              created_at := ⟨2024, 1, 15, 9, 0, 0⟩,
              last_activity := ⟨2024, 1, 15, 9, 0, 0⟩,
              timeout_minutes := 30, is_active := true })] }
        "s1" ⟨2024, 1, 15, 10, 0, 0⟩).1 = none ∧
    memLookup (get_session
        { sessions := [("s1",
            { session_id := "s1", created_at := ⟨2024, 1, 15, 9, 0, 0⟩,
              last_activity := ⟨2024, 1, 15, 9, 0, 0⟩,
              claude_session_id := some "conv-1", message_count := 2,
              is_active := true, claude_working_dir := none,
              timeout_minutes := 30 })],
          db := [("s1",
            { claude_session_id := some "conv-1", claude_working_dir := "None",
              created_at := ⟨2024, 1, 15, 9, 0, 0⟩,
              last_activity := ⟨2024, 1, 15, 9, 0, 0⟩,
              timeout_minutes := 30, is_active := true })] }
        "s1" ⟨2024, 1, 15, 10, 0, 0⟩).2.sessions "s1" = none := by
  have h := (c4_get_session
    { sessions := [("s1",
        { session_id := "s1", created_at := ⟨2024, 1, 15, 9, 0, 0⟩,
          last_activity := ⟨2024, 1, 15, 9, 0, 0⟩,
          claude_session_id := some "conv-1", message_count := 2,
          is_active := true, claude_working_dir := none,
          timeout_minutes := 30 })],
      db := [("s1",
        { claude_session_id := some "conv-1", claude_working_dir := "None",
          created_at := ⟨2024, 1, 15, 9, 0, 0⟩,
          last_activity := ⟨2024, 1, 15, 9, 0, 0⟩,
          timeout_minutes := 30, is_active := true })] }
    "s1" ⟨2024, 1, 15, 10, 0, 0⟩).2.2.1
    { session_id := "s1", created_at := ⟨2024, 1, 15, 9, 0, 0⟩,
      last_activity := ⟨2024, 1, 15, 9, 0, 0⟩,
      claude_session_id := some "conv-1", message_count := 2,
      is_active := true, claude_working_dir := none,
      timeout_minutes := 30 }
    (by decide) (by decide)
  exact ⟨h.1, h.2.1⟩

/-- Claim C8 (code evaluated at the failing input): a session present in
the durable store but not in the memory cache is *not* rehydrated —
`get_or_create_session` raises `TypeError`, because it applies
`datetime.fromisoformat` to the `last_activity` value that
`DatabaseManager.get_session` has already converted into a `datetime`. -/
theorem c8_rehydration_raises :
    get_or_create_session
      { sessions := [],
        db := [("sess1",
          { claude_session_id := some "conv-42", claude_working_dir := "/w",
            created_at := ⟨2024, 1, 15, 9, 0, 0⟩,
            last_activity := ⟨2024, 1, 15, 9, 0, 0⟩,
            timeout_minutes := 30, is_active := true })] }
      (some "sess1")
      { session_id := none, claude_working_dir := none, timeout_minutes := 30 }
      "session_aaaaaaaaaaaa" ⟨2024, 1, 15, 9, 5, 0⟩ =
    Except.error PyErr.typeError := by
  rfl

/-! ## TodoWrite rendering (claim C2) -/

theorem py_strip_eq_empty_iff (s : String) :
    py_strip s = "" ↔ ∀ c ∈ s.toList, is_py_space c := by
  have key : (((s.toList.dropWhile is_py_space).reverse.dropWhile
      is_py_space).reverse = []) ↔ (∀ c ∈ s.toList, is_py_space c) := by
    rw [List.reverse_eq_nil_iff, List.dropWhile_eq_nil_iff]
    constructor
    · intro h c hc
      have hsplit := List.takeWhile_append_dropWhile is_py_space s.toList
      rw [← hsplit] at hc
      rcases List.mem_append.mp hc with h1 | h1
      · exact List.mem_takeWhile_imp h1
      · exact h c (List.mem_reverse.mpr h1)
    · intro h x hx
      have h1 : x ∈ s.toList.dropWhile is_py_space := List.mem_reverse.mp hx
      exact h x ((List.dropWhile_sublist is_py_space).subset h1)
  unfold py_strip
  constructor
  · intro hEq
    exact key.mp (by simpa using congrArg String.data hEq)
  · intro h
    rw [key.mpr h]

theorem display_bool_eq (s : String) :
    py_truthy_stripped s = spec_non_blank s := by
  unfold py_truthy_stripped spec_non_blank
  by_cases h : ∀ c ∈ s.toList, is_py_space c
  · have h1 : py_strip s = "" := (py_strip_eq_empty_iff s).mpr h
    have h2 : s.toList.any (fun c => !is_py_space c) = false := by
      rw [Bool.eq_false_iff]
      intro hc
      obtain ⟨c, hm, hcp⟩ := List.any_eq_true.mp hc
      rw [h c hm] at hcp
      exact absurd hcp (by simp)
    rw [h1, h2]
    simp
  · push_neg at h
    obtain ⟨c, hm, hcp⟩ := h
    have h1 : py_strip s ≠ "" := fun he =>
      hcp ((py_strip_eq_empty_iff s).mp he c hm)
    have h2 : s ≠ "" := by
      intro he
      rw [he] at hm
      exact absurd hm (by simp)
    have h3 : s.toList.any (fun c => !is_py_space c) = true :=
      List.any_eq_true.mpr ⟨c, hm, by simp [hcp]⟩
    rw [h3]
    simp [h1, h2]

/-- Counterexample to claim C2 as stated: for the claim's own example
input, the Content Parser's `_format_todo_content` produces the plain
`任务规划:` rendering from each item's `content` — not the action-labelled
block with `activeForm` preferred that the claim describes. -/
theorem c2_claim_counterexample :
    format_todo_content
        [⟨"pending", "A", ""⟩, ⟨"completed", "B", "Doing B"⟩] =
      "任务规划:\n⏳ A\n✅ B" ∧
    format_todo_content
        [⟨"pending", "A", ""⟩, ⟨"completed", "B", "Doing B"⟩] ≠
      "```\n📋 创建任务列表 (共 2 项任务，已完成 1 项)\n  ⏳ A\n  ✅ Doing B\n```" := by
  exact ⟨by decide, by decide⟩

/-- Claim C2 (amended): the task-list rendering the claim describes is
produced by the Backend Process Manager's `_format_todo_write_display`
(not the parser's `_format_todo_content`): for every non-empty todo list
it equals the spec-worded rendering — action label by "any in_progress /
all completed", header with total and non-zero completed / in-progress
counts, and one `  {emoji} {display}` line per item with `activeForm`
preferred when non-blank. -/
theorem c2_display_amended (todos : List TodoItem) (h : todos ≠ []) :
    format_todo_write_display todos = spec_todo_rendering todos := by
  unfold format_todo_write_display spec_todo_rendering
  rw [if_neg (by simpa using h)]
  dsimp only
  have haction :
      (if todos.countP (fun t => t.status == "in_progress") > 0 then "更新任务列表"
       else if todos.countP (fun t => t.status == "completed") = todos.length
       then "完成任务列表"
       else "创建任务列表") = spec_action_label todos := by
    have heq1 : (todos.countP (fun t => t.status == "in_progress") > 0) ↔
        (todos.any (fun t => t.status == "in_progress") = true) := by
      rw [gt_iff_lt, List.countP_pos_iff, List.any_eq_true]
    have heq2 : (todos.countP (fun t => t.status == "completed") =
        todos.length) ↔
        (todos.all (fun t => t.status == "completed") = true) := by
      rw [List.countP_eq_length, List.all_eq_true]
    unfold spec_action_label
    simp only [heq1, heq2]
  have hbody :
      todos.map (fun t =>
        "  " ++ status_emoji t.status ++ " " ++
          (if py_truthy_stripped t.activeForm then t.activeForm else t.content)
          ++ "\n") =
      todos.map (fun t =>
        "  " ++ status_emoji t.status ++ " " ++
          (if spec_non_blank t.activeForm then t.activeForm else t.content)
          ++ "\n") := by
    refine List.map_congr_left ?_
    intro t _
    rw [display_bool_eq]
  rw [haction, hbody]

/-- Witness for the amended C2 at the claim's example input: the action
label is `创建任务列表` and item B's line reads `  ✅ Doing B`. -/
theorem c2_witness :
    ([⟨"pending", "A", ""⟩, ⟨"completed", "B", "Doing B"⟩] : List TodoItem)
      ≠ [] ∧
    format_todo_write_display
        [⟨"pending", "A", ""⟩, ⟨"completed", "B", "Doing B"⟩] =
      "```\n📋 创建任务列表 (共 2 项任务，已完成 1 项)\n  ⏳ A\n  ✅ Doing B\n```" := by
  refine ⟨by decide, ?_⟩
  have h := c2_display_amended
    [⟨"pending", "A", ""⟩, ⟨"completed", "B", "Doing B"⟩] (by decide)
  rw [h]
  decide

/-! ## Free-text classification (claim C7) -/

/-- Claim C7 (code evaluated at the failing input): the classifier tests
error before planning keywords (a line holding both classifies as
error_handling), but the line `"TodoWrite"` — which contains the planning
keyword `"TodoWrite"` and no error keyword — classifies as regular_text,
because the text is lowercased while the keyword list is not, leaving the
mixed-case keyword unreachable. -/
theorem c7_todowrite_keyword_dead :
    classify_text_content "计划 错误" = ContentType.error_handling ∧
    classify_text_content "TodoWrite" = ContentType.regular_text ∧
    "TodoWrite" ∈ planning_keywords ∧
    error_keywords.all (fun k => !(py_contains (py_lower "TodoWrite") k))
      = true ∧
    py_contains "TodoWrite" "TodoWrite" = true := by
  refine ⟨by decide, by decide, by decide, by decide, by decide⟩

/-! ## UTF-8 reader lemmas (claim C6) -/

theorem utf8_decode_one_single (b0 : Nat) (h : 0x80 ≤ b0) :
    utf8_decode_one [b0] = none := by
  simp only [utf8_decode_one]
  rw [if_neg (by omega)]
  split
  · rfl
  · split
    · rfl
    · split
      · rfl
      · split
        · rfl
        · rfl

theorem utf8_decode_one_two (b0 b1 : Nat) (h : 0xE0 ≤ b0) :
    utf8_decode_one [b0, b1] = none := by
  simp only [utf8_decode_one]
  rw [if_neg (by omega), if_neg (by omega), if_neg (by omega)]
  split
  · rfl
  · split
    · rfl
    · rfl

theorem utf8_decode_one_three (b0 b1 b2 : Nat) (h : 0xF0 ≤ b0) :
    utf8_decode_one [b0, b1, b2] = none := by
  simp only [utf8_decode_one]
  rw [if_neg (by omega), if_neg (by omega), if_neg (by omega),
      if_neg (by omega)]
  split
  · rfl
  · rfl

theorem utf8_encode_two (c : Nat) (h1 : 0x80 ≤ c) (h2 : c < 0x800) :
    utf8_encode c = [0xC0 + c / 64, 0x80 + c % 64] := by
  unfold utf8_encode
  rw [if_neg (by omega), if_pos (by omega)]

theorem utf8_encode_three (c : Nat) (h1 : 0x800 ≤ c) (h2 : c < 0x10000) :
    utf8_encode c = [0xE0 + c / 4096, 0x80 + (c / 64) % 64, 0x80 + c % 64] := by
  unfold utf8_encode
  rw [if_neg (by omega), if_neg (by omega), if_pos (by omega)]

theorem utf8_encode_four (c : Nat) (h1 : 0x10000 ≤ c) (h2 : c < 0x110000) :
    utf8_encode c = [0xF0 + c / 0x40000, 0x80 + (c / 4096) % 64,
      0x80 + (c / 64) % 64, 0x80 + c % 64] := by
  unfold utf8_encode
  rw [if_neg (by omega), if_neg (by omega), if_neg (by omega)]

theorem utf8_decode_one_enc2 (c : Nat) (h1 : 0x80 ≤ c) (h2 : c < 0x800) :
    utf8_decode_one [0xC0 + c / 64, 0x80 + c % 64] = some (c, []) := by
  simp only [utf8_decode_one]
  rw [if_neg (by omega), if_neg (by omega), if_pos (by omega)]
  rw [if_pos (by omega)]
  have hv : (0xC0 + c / 64 - 0xC0) * 64 + (0x80 + c % 64 - 0x80) = c := by
    omega
  rw [hv]

theorem utf8_decode_one_enc3 (c : Nat) (h1 : 0x800 ≤ c) (h2 : c < 0x10000)
    (hs : ¬(0xD800 ≤ c ∧ c < 0xE000)) :
    utf8_decode_one [0xE0 + c / 4096, 0x80 + (c / 64) % 64, 0x80 + c % 64] =
      some (c, []) := by
  simp only [utf8_decode_one]
  rw [if_neg (by omega), if_neg (by omega), if_neg (by omega),
      if_pos (by omega)]
  rw [if_pos (by
    refine ⟨⟨?_, ?_⟩, by omega, by omega⟩
    · split <;> omega
    · split <;> omega)]
  have hv : (0xE0 + c / 4096 - 0xE0) * 4096 +
      (0x80 + (c / 64) % 64 - 0x80) * 64 + (0x80 + c % 64 - 0x80) = c := by
    omega
  rw [hv]

theorem utf8_decode_one_enc4 (c : Nat) (h1 : 0x10000 ≤ c) (h2 : c < 0x110000) :
    utf8_decode_one [0xF0 + c / 0x40000, 0x80 + (c / 4096) % 64,
      0x80 + (c / 64) % 64, 0x80 + c % 64] = some (c, []) := by
  simp only [utf8_decode_one]
  rw [if_neg (by omega), if_neg (by omega), if_neg (by omega),
      if_neg (by omega), if_pos (by omega)]
  rw [if_pos (by
    refine ⟨⟨?_, ?_⟩, ⟨by omega, by omega⟩, by omega, by omega⟩
    · split <;> omega
    · split <;> omega)]
  have hv : (0xF0 + c / 0x40000 - 0xF0) * 0x40000 +
      (0x80 + (c / 4096) % 64 - 0x80) * 4096 +
      (0x80 + (c / 64) % 64 - 0x80) * 64 + (0x80 + c % 64 - 0x80) = c := by
    omega
  rw [hv]

theorem utf8_decode_single_none (b0 : Nat) (h : 0x80 ≤ b0) :
    utf8_decode [b0] = none := by
  show utf8_decode_loop 1 [b0] = none
  simp only [utf8_decode_loop]
  rw [utf8_decode_one_single b0 h]

theorem utf8_decode_two_none (b0 b1 : Nat) (h : 0xE0 ≤ b0) :
    utf8_decode [b0, b1] = none := by
  show utf8_decode_loop 2 [b0, b1] = none
  simp only [utf8_decode_loop]
  rw [utf8_decode_one_two b0 b1 h]

theorem utf8_decode_three_none (b0 b1 b2 : Nat) (h : 0xF0 ≤ b0) :
    utf8_decode [b0, b1, b2] = none := by
  show utf8_decode_loop 3 [b0, b1, b2] = none
  simp only [utf8_decode_loop]
  rw [utf8_decode_one_three b0 b1 b2 h]

theorem utf8_decode_enc2 (c : Nat) (h1 : 0x80 ≤ c) (h2 : c < 0x800) :
    utf8_decode [0xC0 + c / 64, 0x80 + c % 64] = some [c] := by
  show utf8_decode_loop 2 [0xC0 + c / 64, 0x80 + c % 64] = some [c]
  simp only [utf8_decode_loop]
  rw [utf8_decode_one_enc2 c h1 h2]
  rfl

theorem utf8_decode_enc3 (c : Nat) (h1 : 0x800 ≤ c) (h2 : c < 0x10000)
    (hs : ¬(0xD800 ≤ c ∧ c < 0xE000)) :
    utf8_decode [0xE0 + c / 4096, 0x80 + (c / 64) % 64, 0x80 + c % 64] =
      some [c] := by
  show utf8_decode_loop 3
    [0xE0 + c / 4096, 0x80 + (c / 64) % 64, 0x80 + c % 64] = some [c]
  simp only [utf8_decode_loop]
  rw [utf8_decode_one_enc3 c h1 h2 hs]
  rfl

theorem utf8_decode_enc4 (c : Nat) (h1 : 0x10000 ≤ c) (h2 : c < 0x110000) :
    utf8_decode [0xF0 + c / 0x40000, 0x80 + (c / 4096) % 64,
      0x80 + (c / 64) % 64, 0x80 + c % 64] = some [c] := by
  show utf8_decode_loop 4
    [0xF0 + c / 0x40000, 0x80 + (c / 4096) % 64,
     0x80 + (c / 64) % 64, 0x80 + c % 64] = some [c]
  simp only [utf8_decode_loop]
  rw [utf8_decode_one_enc4 c h1 h2]
  rfl

theorem read_step_keep (st : ReaderState) (b : Nat)
    (hdec : utf8_decode (st.byte_buffer ++ [b]) = none)
    (hlen : ¬ (st.byte_buffer ++ [b]).length > 4) :
    read_byte_step st b = { st with byte_buffer := st.byte_buffer ++ [b] } := by
  unfold read_byte_step
  dsimp only
  rw [hdec]
  dsimp only
  rw [if_neg hlen]

theorem read_step_flush (st : ReaderState) (b : Nat) (cs : List Nat)
    (hdec : utf8_decode (st.byte_buffer ++ [b]) = some cs) :
    read_byte_step st b =
      { st with byte_buffer := [], line_buffer := st.line_buffer ++ cs } := by
  unfold read_byte_step
  dsimp only
  rw [hdec]

/-- Claim C6: feeding the UTF-8 encoding of any multi-byte scalar `c` one
byte at a time through the reader's decode loop, starting from an empty
byte buffer, appends exactly the single character `c` to the line buffer,
leaves the byte buffer empty, and never discards the buffer (no decode
failure is ever surfaced). -/
theorem c6_multibyte_single_char (c : Nat) (hval : valid_scalar c)
    (hmb : 0x80 ≤ c) (st : ReaderState) (hbb : st.byte_buffer = []) :
    read_bytes st (utf8_encode c) =
      { byte_buffer := [], line_buffer := st.line_buffer ++ [c],
        discards := st.discards } := by
  obtain ⟨hlt, hsur⟩ := hval
  by_cases hc2 : c < 0x800
  · rw [utf8_encode_two c hmb hc2]
    unfold read_bytes
    simp only [List.foldl_cons, List.foldl_nil]
    have s1 : read_byte_step st (0xC0 + c / 64) =
        { st with byte_buffer := [0xC0 + c / 64] } := by
      rw [read_step_keep st (0xC0 + c / 64) (by
        rw [hbb]
        exact utf8_decode_single_none _ (by omega)) (by rw [hbb]; simp)]
      rw [hbb]
      rfl
    rw [s1, read_step_flush { st with byte_buffer := [0xC0 + c / 64] }
      (0x80 + c % 64) [c] (by exact utf8_decode_enc2 c hmb hc2)]
  · by_cases hc3 : c < 0x10000
    · rw [utf8_encode_three c (by omega) hc3]
      unfold read_bytes
      simp only [List.foldl_cons, List.foldl_nil]
      have s1 : read_byte_step st (0xE0 + c / 4096) =
          { st with byte_buffer := [0xE0 + c / 4096] } := by
        rw [read_step_keep st (0xE0 + c / 4096) (by
          rw [hbb]
          exact utf8_decode_single_none _ (by omega)) (by rw [hbb]; simp)]
        rw [hbb]
        rfl
      rw [s1]
      have s2 : read_byte_step { st with byte_buffer := [0xE0 + c / 4096] }
          (0x80 + (c / 64) % 64) =
          { st with byte_buffer := [0xE0 + c / 4096, 0x80 + (c / 64) % 64] } := by
        rw [read_step_keep { st with byte_buffer := [0xE0 + c / 4096] }
          (0x80 + (c / 64) % 64)
          (by exact utf8_decode_two_none (0xE0 + c / 4096) _ (by omega))
          (by simp)]
        rfl
      rw [s2, read_step_flush
        { st with byte_buffer := [0xE0 + c / 4096, 0x80 + (c / 64) % 64] }
        (0x80 + c % 64) [c] (by exact utf8_decode_enc3 c (by omega) hc3 hsur)]
    · rw [utf8_encode_four c (by omega) hlt]
      unfold read_bytes
      simp only [List.foldl_cons, List.foldl_nil]
      have s1 : read_byte_step st (0xF0 + c / 0x40000) =
          { st with byte_buffer := [0xF0 + c / 0x40000] } := by
        rw [read_step_keep st (0xF0 + c / 0x40000) (by
          rw [hbb]
          exact utf8_decode_single_none _ (by omega)) (by rw [hbb]; simp)]
        rw [hbb]
        rfl
      rw [s1]
      have s2 : read_byte_step { st with byte_buffer := [0xF0 + c / 0x40000] }
          (0x80 + (c / 4096) % 64) =
          { st with byte_buffer :=
              [0xF0 + c / 0x40000, 0x80 + (c / 4096) % 64] } := by
        rw [read_step_keep { st with byte_buffer := [0xF0 + c / 0x40000] }
          (0x80 + (c / 4096) % 64)
          (by exact utf8_decode_two_none (0xF0 + c / 0x40000) _ (by omega))
          (by simp)]
        rfl
      rw [s2]
      have s3 : read_byte_step
          { st with byte_buffer := [0xF0 + c / 0x40000, 0x80 + (c / 4096) % 64] }
          (0x80 + (c / 64) % 64) =
          { st with byte_buffer := [0xF0 + c / 0x40000, 0x80 + (c / 4096) % 64,
              0x80 + (c / 64) % 64] } := by
        rw [read_step_keep
          { st with byte_buffer := [0xF0 + c / 0x40000, 0x80 + (c / 4096) % 64] }
          (0x80 + (c / 64) % 64)
          (by exact utf8_decode_three_none (0xF0 + c / 0x40000) _ _ (by omega))
          (by simp)]
        rfl
      rw [s3, read_step_flush
        { st with byte_buffer := [0xF0 + c / 0x40000, 0x80 + (c / 4096) % 64,
            0x80 + (c / 64) % 64] }
        (0x80 + c % 64) [c] (by exact utf8_decode_enc4 c (by omega) hlt)]

/-- Witness for C6: the three-byte character 中 (U+4E2D), split into three
single-byte reads, decodes to exactly one character. -/
theorem c6_witness :
    valid_scalar 0x4E2D ∧ 0x80 ≤ 0x4E2D ∧
    read_bytes ⟨[], [], 0⟩ (utf8_encode 0x4E2D) = ⟨[], [0x4E2D], 0⟩ := by
  refine ⟨by decide, by decide, ?_⟩
  exact c6_multibyte_single_char 0x4E2D (by decide) (by decide) ⟨[], [], 0⟩ rfl

/-! ## Process registry lemmas (claim C10) -/

theorem alookup_mem {κ β : Type} [BEq κ] [LawfulBEq κ]
    {l : List (κ × β)} {k : κ} {v : β} (h : alookup l k = some v) :
    ∃ e ∈ l, e.1 = k ∧ e.2 = v := by
  unfold alookup at h
  cases hf : l.find? (fun e => e.1 == k) with
  | none => rw [hf] at h; exact absurd h (by simp)
  | some e =>
    rw [hf] at h
    refine ⟨e, List.mem_of_find?_eq_some hf, ?_, ?_⟩
    · simpa using List.find?_some hf
    · simpa using h

theorem mem_ainsert {κ β : Type} [BEq κ] [LawfulBEq κ]
    {l : List (κ × β)} {k : κ} {v : β} {e : κ × β}
    (h : e ∈ ainsert l k v) : e = (k, v) ∨ e ∈ l := by
  unfold ainsert at h
  split at h
  · obtain ⟨x, hx, hfx⟩ := List.mem_map.mp h
    by_cases hk : (x.1 == k) = true
    · rw [if_pos hk] at hfx
      exact Or.inl hfx.symm
    · rw [if_neg hk] at hfx
      exact Or.inr (hfx ▸ hx)
  · rcases List.mem_append.mp h with h1 | h1
    · exact Or.inr h1
    · exact Or.inl (by simpa using h1)

theorem mem_aerase {κ β : Type} [BEq κ]
    {l : List (κ × β)} {k : κ} {e : κ × β}
    (h : e ∈ aerase l k) : e ∈ l :=
  (List.filter_sublist l).subset h

theorem alookup_aerase_some {κ β : Type} [BEq κ] [LawfulBEq κ]
    {l : List (κ × β)} {k k2 : κ} {v : β}
    (h : alookup (aerase l k) k2 = some v) :
    k2 ≠ k ∧ alookup l k2 = some v := by
  by_cases he : k2 = k
  · rw [he, alookup_aerase] at h
    exact absurd h (by simp)
  · exact ⟨he, (alookup_aerase_ne l k k2 he) ▸ h⟩

theorem create_new_preserves (st : CSState) (sid : Option Nat) (ok : Bool)
    (h : cs_aux_invariant st) :
    cs_aux_invariant (create_new_process st sid ok) := by
  obtain ⟨hA, hB, hC, hD, hE⟩ := h
  unfold create_new_process
  cases ok with
  | false =>
    refine ⟨hA, hB, hC, ?_, ?_⟩
    · exact fun e he => Nat.lt_succ_of_lt (hD e he)
    · exact fun e he => Nat.lt_succ_of_lt (hE e he)
  | true =>
    simp only [Bool.not_true, Bool.false_eq_true, if_false]
    cases sid with
    | none =>
      refine ⟨?_, ?_, hC, ?_, ?_⟩
      · intro sid2 p2 hp2
        have := hA sid2 p2 hp2
        have hne : p2.process_id ≠ st.next_id := by
          obtain ⟨e, he, he1, he2⟩ := alookup_mem this
          have := hD e he
          omega
        show alookup (ainsert st.active_processes st.next_id
          ⟨st.next_id, true⟩) p2.process_id = some p2
        rw [alookup_ainsert_ne _ _ _ _ hne]
        exact this
      · intro e he
        rcases mem_ainsert he with he1 | he1
        · rw [he1]
        · exact hB e he1
      · intro e he
        rcases mem_ainsert he with he1 | he1
        · rw [he1]
          exact Nat.lt_succ_self _
        · exact Nat.lt_succ_of_lt (hD e he1)
      · exact fun e he => Nat.lt_succ_of_lt (hE e he)
    | some s =>
      refine ⟨?_, ?_, ?_, ?_, ?_⟩
      · intro sid2 p2 hp2
        by_cases hs : sid2 = s
        · rw [hs] at hp2
          have hp2v : p2 = ⟨st.next_id, true⟩ := by
            have := alookup_ainsert st.session_processes s
              (⟨st.next_id, true⟩ : ProcHandle)
            show p2 = ProcHandle.mk st.next_id true
            have h2 : plookup (pinsert st.session_processes s
                ⟨st.next_id, true⟩) s = some ⟨st.next_id, true⟩ := this
            rw [h2] at hp2
            exact (Option.some.injEq _ _ ▸ hp2).symm
          rw [hp2v]
          exact alookup_ainsert st.active_processes st.next_id _
        · have hp2' : plookup st.session_processes sid2 = some p2 := by
            have := alookup_ainsert_ne st.session_processes s sid2
              (⟨st.next_id, true⟩ : ProcHandle) hs
            show alookup st.session_processes sid2 = some p2
            rw [← this]
            exact hp2
          have := hA sid2 p2 hp2'
          have hne : p2.process_id ≠ st.next_id := by
            obtain ⟨e, he, he1, he2⟩ := alookup_mem this
            have := hD e he
            omega
          show alookup (ainsert st.active_processes st.next_id
            ⟨st.next_id, true⟩) p2.process_id = some p2
          rw [alookup_ainsert_ne _ _ _ _ hne]
          exact this
      · intro e he
        rcases mem_ainsert he with he1 | he1
        · rw [he1]
        · exact hB e he1
      · intro e1 he1 e2 he2 hpid
        rcases mem_ainsert he1 with h1 | h1 <;>
          rcases mem_ainsert he2 with h2 | h2
        · rw [h1, h2]
        · exfalso
          have := hE e2 h2
          rw [h1] at hpid
          simp only at hpid
          omega
        · exfalso
          have := hE e1 h1
          rw [h2] at hpid
          simp only at hpid
          omega
        · exact hC e1 h1 e2 h2 hpid
      · intro e he
        rcases mem_ainsert he with he1 | he1
        · rw [he1]
          exact Nat.lt_succ_self _
        · exact Nat.lt_succ_of_lt (hD e he1)
      · intro e he
        rcases mem_ainsert he with he1 | he1
        · rw [he1]
          exact Nat.lt_succ_self _
        · exact Nat.lt_succ_of_lt (hE e he1)

theorem erase_pair_preserves (st : CSState) (s : Nat) (p : ProcHandle)
    (hlk : plookup st.session_processes s = some p)
    (h : cs_aux_invariant st) :
    cs_aux_invariant { st with
      session_processes := perase st.session_processes s,
      active_processes := perase st.active_processes p.process_id } := by
  obtain ⟨hA, hB, hC, hD, hE⟩ := h
  obtain ⟨ep, hep, hep1, hep2⟩ :=
    alookup_mem (show alookup st.session_processes s = some p from hlk)
  refine ⟨?_, ?_, ?_, ?_, ?_⟩
  · intro sid2 p2 hp2
    have h2 := alookup_aerase_some
      (show alookup (aerase st.session_processes s) sid2 = some p2 from hp2)
    obtain ⟨e2, he2, he21, he22⟩ := alookup_mem h2.2
    have hact := hA sid2 p2 h2.2
    have hne : p2.process_id ≠ p.process_id := by
      intro hEq
      have := hC e2 he2 ep hep (by rw [he22, hep2, hEq])
      exact h2.1 (by rw [← he21, this, hep1])
    show alookup (aerase st.active_processes p.process_id) p2.process_id =
      some p2
    rw [alookup_aerase_ne _ _ _ hne]
    exact hact
  · exact fun e he => hB e (mem_aerase he)
  · exact fun e1 he1 e2 he2 hp =>
      hC e1 (mem_aerase he1) e2 (mem_aerase he2) hp
  · exact fun e he => hD e (mem_aerase he)
  · exact fun e he => hE e (mem_aerase he)

theorem get_or_create_preserves (st : CSState) (sid : Option Nat) (ok : Bool)
    (h : cs_aux_invariant st) :
    cs_aux_invariant (get_or_create_process st sid ok) := by
  unfold get_or_create_process
  cases sid with
  | none =>
    dsimp only
    exact create_new_preserves st none ok h
  | some s =>
    dsimp only
    cases hlk : plookup st.session_processes s with
    | none =>
      dsimp only
      exact create_new_preserves st (some s) ok h
    | some p =>
      dsimp only
      cases hrun : p.is_running with
      | true =>
        rw [if_pos rfl]
        exact h
      | false =>
        rw [if_neg Bool.false_ne_true]
        exact create_new_preserves _ (some s) ok
          (erase_pair_preserves st s p hlk h)

theorem remove_process_preserves (st : CSState) (pid : Nat)
    (h : cs_aux_invariant st) :
    cs_aux_invariant (remove_process st pid) := by
  obtain ⟨hA, hB, hC, hD, hE⟩ := h
  unfold remove_process
  cases hlk : plookup st.active_processes pid with
  | none => exact ⟨hA, hB, hC, hD, hE⟩
  | some q =>
    dsimp only
    cases hf : (st.session_processes.find?
        (fun e => e.2.process_id == pid)).map (fun e => e.1) with
    | some s =>
      obtain ⟨ef, hef, hef1⟩ := Option.map_eq_some'.mp hf
      have hefm := List.mem_of_find?_eq_some hef
      have hefp : ef.2.process_id = pid := by
        simpa using List.find?_some hef
      refine ⟨?_, ?_, ?_, ?_, ?_⟩
      · intro sid2 p2 hp2
        have h2 := alookup_aerase_some
          (show alookup (aerase st.session_processes s) sid2 = some p2
            from hp2)
        obtain ⟨e2, he2, he21, he22⟩ := alookup_mem h2.2
        have hact := hA sid2 p2 h2.2
        have hne : p2.process_id ≠ pid := by
          intro hEq
          have := hC e2 he2 ef hefm (by rw [he22, hefp, hEq])
          exact h2.1 (by rw [← he21, this, hef1])
        show alookup (aerase st.active_processes pid) p2.process_id = some p2
        rw [alookup_aerase_ne _ _ _ hne]
        exact hact
      · exact fun e he => hB e (mem_aerase he)
      · exact fun e1 he1 e2 he2 hp =>
          hC e1 (mem_aerase he1) e2 (mem_aerase he2) hp
      · exact fun e he => hD e (mem_aerase he)
      · exact fun e he => hE e (mem_aerase he)
    | none =>
      have hnone : ∀ e ∈ st.session_processes, ¬ (e.2.process_id == pid) = true :=
        List.find?_eq_none.mp (Option.map_eq_none'.mp hf)
      refine ⟨?_, ?_, hC, ?_, hE⟩
      · intro sid2 p2 hp2
        obtain ⟨e2, he2, he21, he22⟩ := alookup_mem
          (show alookup st.session_processes sid2 = some p2 from hp2)
        have hact := hA sid2 p2 hp2
        have hne : p2.process_id ≠ pid := by
          intro hEq
          exact hnone e2 he2 (by rw [he22, hEq]; simp)
        show alookup (aerase st.active_processes pid) p2.process_id = some p2
        rw [alookup_aerase_ne _ _ _ hne]
        exact hact
      · exact fun e he => hB e (mem_aerase he)
      · exact fun e he => hD e (mem_aerase he)

theorem remove_session_process_preserves (st : CSState) (sid : Nat)
    (h : cs_aux_invariant st) :
    cs_aux_invariant (remove_session_process st sid) := by
  unfold remove_session_process
  cases hlk : plookup st.session_processes sid with
  | none => exact h
  | some p => exact erase_pair_preserves st sid p hlk h

theorem cleanup_preserves (st : CSState) (h : cs_aux_invariant st) :
    cs_aux_invariant (cleanup_all_processes st) := by
  unfold cleanup_all_processes
  have hfold : ∀ (pids : List Nat) (st0 : CSState), cs_aux_invariant st0 →
      cs_aux_invariant (pids.foldl remove_process st0) := by
    intro pids
    induction pids with
    | nil => exact fun st0 h0 => h0
    | cons q t ih =>
      exact fun st0 h0 => ih _ (remove_process_preserves st0 q h0)
  obtain ⟨hA, hB, hC, hD, hE⟩ :=
    hfold (st.active_processes.map (fun e => e.1)) st h
  refine ⟨?_, hB, ?_, hD, ?_⟩
  · intro sid2 p2 hp2
    simp [plookup, alookup, List.find?] at hp2
  · intro e1 he1
    exact absurd he1 (List.not_mem_nil e1)
  · intro e he
    exact absurd he (List.not_mem_nil e)

theorem proc_step_preserves (st : CSState) (op : ProcOp)
    (h : cs_aux_invariant st) : cs_aux_invariant (proc_step st op) := by
  cases op with
  | getOrCreate sid ok => exact get_or_create_preserves st sid ok h
  | removeProc pid => exact remove_process_preserves st pid h
  | removeSessionProc sid => exact remove_session_process_preserves st sid h
  | cleanupAll => exact cleanup_preserves st h

/-- Claim C10: after any sequence of `get_or_create_process`,
`remove_process`, `remove_session_process` and `cleanup_all_processes`
operations from the initial empty registries, every handle stored in the
conversation-id index is also registered under its own process id in the
primary registry. -/
theorem c10_registry_consistency (ops : List ProcOp) :
    cs_invariant (run_proc_ops ops) := by
  have key : ∀ (l : List ProcOp) (st : CSState), cs_aux_invariant st →
      cs_aux_invariant (l.foldl proc_step st) := by
    intro l
    induction l with
    | nil => exact fun st h => h
    | cons op t ih => exact fun st h => ih _ (proc_step_preserves st op h)
  have h0 : cs_aux_invariant initial_cs_state := by
    refine ⟨?_, ?_, ?_, ?_, ?_⟩
    · intro sid p hp
      simp [plookup, alookup, List.find?, initial_cs_state] at hp
    · intro e he
      exact absurd he (List.not_mem_nil e)
    · intro e1 he1
      exact absurd he1 (List.not_mem_nil e1)
    · intro e he
      exact absurd he (List.not_mem_nil e)
    · intro e he
      exact absurd he (List.not_mem_nil e)
  exact (key ops initial_cs_state h0).1


/-! ## SSE frame well-formedness (claim C9) -/

/-- Structural induction over `JVal` with element access for the nested
lists. -/
theorem jval_ind (P : JVal → Prop) (h0 : P .null) (h1 : ∀ b, P (.jbool b))
    (h2 : ∀ n, P (.jnum n)) (h3 : ∀ s, P (.jstr s))
    (h4 : ∀ xs, (∀ v ∈ xs, P v) → P (.jarr xs))
    (h5 : ∀ fs, (∀ k v, (k, v) ∈ fs → P v) → P (.jobj fs)) :
    ∀ v, P v
  | .null => h0
  | .jbool b => h1 b
  | .jnum n => h2 n
  | .jstr s => h3 s
  | .jarr xs => h4 xs (fun v hv => jval_ind P h0 h1 h2 h3 h4 h5 v)
  | .jobj fs => h5 fs (fun k v hkv => jval_ind P h0 h1 h2 h3 h4 h5 v)
termination_by v => sizeOf v
decreasing_by
  · have hs := List.sizeOf_lt_of_mem hv
    simp at hs ⊢
    omega
  · have hs := List.sizeOf_lt_of_mem hkv
    simp at hs ⊢
    omega

theorem hex_digit_ne_nl (n : Nat) : hex_digit n ≠ '\n' := by
  unfold hex_digit
  split <;> decide

theorem esc_char_no_nl (c : Char) : '\n' ∉ esc_char c := by
  intro hmem
  unfold esc_char at hmem
  split at hmem
  · exact absurd hmem (by decide)
  · split at hmem
    · exact absurd hmem (by decide)
    · split at hmem
      · exact absurd hmem (by decide)
      · split at hmem
        · exact absurd hmem (by decide)
        · split at hmem
          · exact absurd hmem (by decide)
          · split at hmem
            · exact absurd hmem (by decide)
            · split at hmem
              · exact absurd hmem (by decide)
              · split at hmem
                · simp only [List.mem_cons, List.not_mem_nil, or_false] at hmem
                  rcases hmem with h | h | h | h | h | h
                  · exact absurd h (by decide)
                  · exact absurd h (by decide)
                  · exact absurd h (by decide)
                  · exact absurd h (by decide)
                  · exact hex_digit_ne_nl _ h.symm
                  · exact hex_digit_ne_nl _ h.symm
                · simp only [List.mem_cons, List.not_mem_nil, or_false] at hmem
                  have hc : ¬ c.toNat < 32 := by assumption
                  rw [← hmem] at hc
                  exact hc (by decide)

theorem render_str_no_nl (s : String) : '\n' ∉ render_str s := by
  intro hmem
  unfold render_str at hmem
  rcases List.mem_cons.mp hmem with h | h
  · exact absurd h (by decide)
  · rcases List.mem_append.mp h with h2 | h2
    · obtain ⟨cs, hcs, hc⟩ := List.mem_flatten.mp h2
      obtain ⟨c, hcm, rfl⟩ := List.mem_map.mp hcs
      exact esc_char_no_nl c hc
    · simp only [List.mem_cons, List.not_mem_nil, or_false] at h2
      exact absurd h2 (by decide)

theorem render_nat_aux_no_nl (fuel n : Nat) : '\n' ∉ render_nat_aux fuel n := by
  induction fuel generalizing n with
  | zero => simp [render_nat_aux]
  | succ f ih =>
    intro hmem
    unfold render_nat_aux at hmem
    split at hmem
    · simp only [List.mem_cons, List.not_mem_nil, or_false] at hmem
      exact hex_digit_ne_nl _ hmem.symm
    · rcases List.mem_append.mp hmem with h | h
      · exact ih _ h
      · simp only [List.mem_cons, List.not_mem_nil, or_false] at h
        exact hex_digit_ne_nl _ h.symm

theorem render_int_no_nl (n : Int) : '\n' ∉ render_int n := by
  intro hmem
  unfold render_int at hmem
  rcases List.mem_append.mp hmem with h | h
  · split at h
    · simp only [List.mem_cons, List.not_mem_nil, or_false] at h
      exact absurd h (by decide)
    · exact List.not_mem_nil _ h
  · exact render_nat_aux_no_nl _ _ h

theorem render_arr_no_nl (xs : List JVal) (h : ∀ v ∈ xs, '\n' ∉ render v) :
    '\n' ∉ render_arr xs := by
  induction xs with
  | nil => simp [render_arr]
  | cons x t ih =>
    cases t with
    | nil =>
      intro hmem
      simp only [render_arr] at hmem
      exact h x (List.mem_cons_self _ _) hmem
    | cons y t2 =>
      intro hmem
      simp only [render_arr] at hmem
      rcases List.mem_append.mp hmem with h2 | h2
      · rcases List.mem_append.mp h2 with h3 | h3
        · exact h x (List.mem_cons_self _ _) h3
        · exact absurd h3 (by decide)
      · exact ih (fun v hv => h v (List.mem_cons_of_mem _ hv)) h2

theorem render_obj_no_nl (fs : List (String × JVal))
    (h : ∀ k v, (k, v) ∈ fs → '\n' ∉ render v) : '\n' ∉ render_obj fs := by
  induction fs with
  | nil => simp [render_obj]
  | cons e t ih =>
    rcases e with ⟨k, v⟩
    cases t with
    | nil =>
      intro hmem
      simp only [render_obj] at hmem
      rcases List.mem_append.mp hmem with h2 | h2
      · rcases List.mem_append.mp h2 with h3 | h3
        · exact render_str_no_nl k h3
        · exact absurd h3 (by decide)
      · exact h k v (List.mem_cons_self _ _) h2
    | cons e2 t2 =>
      intro hmem
      simp only [render_obj] at hmem
      rcases List.mem_append.mp hmem with h2 | h2
      · rcases List.mem_append.mp h2 with h3 | h3
        · rcases List.mem_append.mp h3 with h4 | h4
          · rcases List.mem_append.mp h4 with h5 | h5
            · exact render_str_no_nl k h5
            · exact absurd h5 (by decide)
          · exact h k v (List.mem_cons_self _ _) h4
        · exact absurd h3 (by decide)
      · exact ih (fun k2 v2 hm => h k2 v2 (List.mem_cons_of_mem _ hm)) h2

theorem render_no_nl : ∀ v : JVal, '\n' ∉ render v := by
  refine jval_ind (fun v => '\n' ∉ render v) ?_ ?_ ?_ ?_ ?_ ?_
  · intro hmem
    simp only [render] at hmem
    exact absurd hmem (by decide)
  · intro b hmem
    simp only [render] at hmem
    cases b
    · exact absurd hmem (by decide)
    · exact absurd hmem (by decide)
  · intro n hmem
    simp only [render] at hmem
    exact render_int_no_nl n hmem
  · intro s hmem
    simp only [render] at hmem
    exact render_str_no_nl s hmem
  · intro xs hx hmem
    simp only [render] at hmem
    rcases List.mem_cons.mp hmem with h | h
    · exact absurd h (by decide)
    · rcases List.mem_append.mp h with h2 | h2
      · exact render_arr_no_nl xs hx h2
      · simp only [List.mem_cons, List.not_mem_nil, or_false] at h2
        exact absurd h2 (by decide)
  · intro fs hf hmem
    simp only [render] at hmem
    rcases List.mem_cons.mp hmem with h | h
    · exact absurd h (by decide)
    · rcases List.mem_append.mp h with h2 | h2
      · exact render_obj_no_nl fs hf h2
      · simp only [List.mem_cons, List.not_mem_nil, or_false] at h2
        exact absurd h2 (by decide)

/-- `_format_sse_data` always produces a well-formed frame, whether or not
serialization succeeds. -/
theorem format_sse_well_formed (d : PyData) :
    well_formed_frame (format_sse_data d) := by
  cases d with
  | json v =>
    refine ⟨String.mk (render v), rfl, ?_⟩
    exact render_no_nl v
  | notSerializable =>
    exact ⟨"\x7b\"error\": \"Failed to format response\"\x7d", by decide, by decide⟩

theorem done_frame_well_formed : well_formed_frame done_frame :=
  ⟨"[DONE]", by decide, by decide⟩

/-- Every element of the loop output is either a formatted frame or the
terminal `[DONE]` frame. -/
theorem stream_loop_frames (rid model : String) (created : Int) :
    ∀ (items : List StreamItem) (acc : List ParsedContent) (f : String),
      f ∈ stream_loop rid model created items acc →
      (∃ d : PyData, f = format_sse_data d) ∨ f = done_frame := by
  intro items
  induction items with
  | nil =>
    intro acc f hf
    simp only [stream_loop] at hf
    rcases List.mem_append.mp hf with h | h
    · split at h
      · simp only [List.mem_cons, List.not_mem_nil, or_false] at h
        exact Or.inl ⟨_, h⟩
      · exact absurd h (List.not_mem_nil f)
    · simp only [List.mem_cons, List.not_mem_nil, or_false] at h
      rcases h with h | h
      · exact Or.inl ⟨_, h⟩
      · exact Or.inr h
  | cons it rest ih =>
    intro acc f hf
    cases it with
    | errItem m =>
      simp only [stream_loop] at hf
      simp only [List.mem_cons, List.not_mem_nil, or_false] at hf
      exact Or.inl ⟨_, hf⟩
    | line s =>
      simp only [stream_loop] at hf
      split at hf
      · exact ih _ f hf
      · rcases List.mem_append.mp hf with h | h
        · revert h
          cases hm : create_structured_response rid (parse_text_content s) model created with
          | some d =>
            intro h
            simp only [List.mem_cons, List.not_mem_nil, or_false] at h
            exact Or.inl ⟨_, h⟩
          | none =>
            intro h
            exact absurd h (List.not_mem_nil f)
        · exact ih _ f h

/-- Claim C9: every element yielded by the Streaming Translator is a single
well-formed SSE frame `data: <payload>\n\n` with a newline-free payload;
the frame formatter never raises, substituting the fixed fallback error
frame when JSON serialization of the payload fails, so every frame of
every stream is well formed. -/
theorem c9_sse_frames_well_formed :
    (∀ d : PyData, well_formed_frame (format_sse_data d)) ∧
    (∀ (rid model : String) (created : Int) (items : List StreamItem),
      ∀ f ∈ create_claude_stream rid model created items,
        well_formed_frame f) := by
  refine ⟨format_sse_well_formed, ?_⟩
  intro rid model created items f hf
  unfold create_claude_stream at hf
  rcases List.mem_cons.mp hf with h | h
  · rw [h]
    exact format_sse_well_formed _
  · rcases stream_loop_frames rid model created items [] f h with ⟨d, rfl⟩ | rfl
    · exact format_sse_well_formed d
    · exact done_frame_well_formed

theorem c9_witness :
    well_formed_frame (format_sse_data (.json (.jobj []))) ∧
    well_formed_frame (format_sse_data .notSerializable) ∧
    well_formed_frame done_frame := by
  refine ⟨?_, ?_, ?_⟩
  · exact c9_sse_frames_well_formed.1 (.json (.jobj []))
  · exact c9_sse_frames_well_formed.1 .notSerializable
  · exact c9_sse_frames_well_formed.2 "r" "m" 0 [] done_frame
      (by simp [create_claude_stream, stream_loop])

/-! ## Stream termination shape (claim C3) -/

theorem str_data_append (a b : String) : (a ++ b).data = a.data ++ b.data := by
  cases a
  cases b
  rfl

theorem data_of_frame (v : JVal) :
    (format_sse_data (.json v)).data = "data: ".data ++ render v ++ "\n\n".data := by
  show ("data: " ++ String.mk (render v) ++ "\n\n").data = _
  rw [str_data_append, str_data_append]

/-- The object renderer starts with the rendering of the first key. -/
theorem render_obj_key_head (k : String) (v : JVal) (fs : List (String × JVal)) :
    ∃ t, render_obj ((k, v) :: fs) = render_str k ++ t := by
  cases fs with
  | nil =>
    refine ⟨": ".toList ++ render v, ?_⟩
    simp only [render_obj]
    simp [List.append_assoc]
  | cons e t2 =>
    refine ⟨": ".toList ++ render v ++ ", ".toList ++ render_obj (e :: t2), ?_⟩
    simp only [render_obj]
    simp [List.append_assoc]

/-- Character 8 of a frame whose payload object starts with key `"id"`. -/
theorem id_frame_char8 (x : JVal) (l : List (String × JVal)) :
    ((format_sse_data (.json (.jobj (("id", x) :: l)))).data)[8]? = some 'i' := by
  obtain ⟨t, ht⟩ := render_obj_key_head "id" x l
  rw [data_of_frame]
  rw [show render (JVal.jobj (("id", x) :: l)) =
        '\x7b' :: render_obj (("id", x) :: l) ++ ['\x7d'] from by rw [render]]
  rw [ht]
  rw [show render_str "id" = ['"', 'i', 'd', '"'] from by decide]
  rw [show "data: ".data = ['d', 'a', 't', 'a', ':', ' '] from by rfl]
  simp only [List.cons_append, List.append_assoc, List.nil_append]
  simp only [List.getElem?_cons_succ, List.getElem?_cons_zero]

/-- Character 8 of a frame whose payload object starts with key `"error"`. -/
theorem err_frame_char8 (y : JVal) (l : List (String × JVal)) :
    ((format_sse_data (.json (.jobj (("error", y) :: l)))).data)[8]? = some 'e' := by
  obtain ⟨t, ht⟩ := render_obj_key_head "error" y l
  rw [data_of_frame]
  rw [show render (JVal.jobj (("error", y) :: l)) =
        '\x7b' :: render_obj (("error", y) :: l) ++ ['\x7d'] from by rw [render]]
  rw [ht]
  rw [show render_str "error" = ['"', 'e', 'r', 'r', 'o', 'r', '"'] from by decide]
  rw [show "data: ".data = ['d', 'a', 't', 'a', ':', ' '] from by rfl]
  simp only [List.cons_append, List.append_assoc, List.nil_append]
  simp only [List.getElem?_cons_succ, List.getElem?_cons_zero]

/-- Character 6 of a frame whose payload is any JSON object. -/
theorem obj_frame_char6 (fs : List (String × JVal)) :
    ((format_sse_data (.json (.jobj fs))).data)[6]? = some '\x7b' := by
  rw [data_of_frame]
  rw [show render (JVal.jobj fs) = '\x7b' :: render_obj fs ++ ['\x7d'] from by
    rw [render]]
  rw [show "data: ".data = ['d', 'a', 't', 'a', ':', ' '] from by rfl]
  simp only [List.cons_append, List.append_assoc, List.nil_append]
  simp only [List.getElem?_cons_succ, List.getElem?_cons_zero]

theorem id_frame_ne_error_frame (f : String) (hf : is_id_frame f) (m : String) :
    f ≠ format_sse_data (.json (error_body_json m)) := by
  obtain ⟨x, l, rfl⟩ := hf
  intro hEq
  have g1 := id_frame_char8 x l
  have g2 : ((format_sse_data (.json (error_body_json m))).data)[8]? = some 'e' :=
    err_frame_char8 _ _
  rw [hEq] at g1
  rw [g2] at g1
  exact absurd (Option.some.inj g1) (by decide)

theorem obj_frame_ne_done (fs : List (String × JVal)) :
    format_sse_data (.json (.jobj fs)) ≠ done_frame := by
  intro hEq
  have g1 := obj_frame_char6 fs
  rw [hEq] at g1
  have g2 : (done_frame.data)[6]? = some '[' := by decide
  rw [g2] at g1
  exact absurd (Option.some.inj g1) (by decide)

/-- Every chunk the classifier emits is an object whose first key is
`"id"`. -/
theorem structured_response_id_first (rid : String) (pc : ParsedContent)
    (model : String) (created : Int) (d : JVal)
    (h : create_structured_response rid pc model created = some d) :
    ∃ x l, d = .jobj (("id", x) :: l) := by
  unfold create_structured_response at h
  split at h
  all_goals
    first
      | exact Option.noConfusion h
      | (injection h with h2
         exact ⟨_, _, h2.symm⟩)

theorem no_err_all_line (items : List StreamItem)
    (h : has_err_item items = false) : ∀ it ∈ items, is_line_item it := by
  intro it hit
  cases it with
  | line s => trivial
  | errItem m =>
    exfalso
    have ht : has_err_item items = true := by
      unfold has_err_item
      exact List.any_eq_true.mpr ⟨.errItem m, hit, rfl⟩
    rw [h] at ht
    exact Bool.false_ne_true ht

/-- On an error-free item sequence the loop output is a run of `"id"`-first
chunks followed by the stop chunk and the `[DONE]` frame. -/
theorem stream_loop_clean (rid model : String) (created : Int) :
    ∀ (items : List StreamItem) (acc : List ParsedContent),
      (∀ it ∈ items, is_line_item it) →
      ∃ pre, stream_loop rid model created items acc =
          pre ++ [format_sse_data (.json (stream_response_json rid model created
            none none (some "stop") true)), done_frame] ∧
        ∀ f ∈ pre, is_id_frame f := by
  intro items
  induction items with
  | nil =>
    intro acc _
    refine ⟨(if !acc.isEmpty then
        [format_sse_data (.json (create_summary_response rid
          (extract_structured_info acc) model created))] else []), ?_, ?_⟩
    · rfl
    · intro f hf
      split at hf
      · simp only [List.mem_cons, List.not_mem_nil, or_false] at hf
        exact ⟨_, _, hf⟩
      · exact absurd hf (List.not_mem_nil f)
  | cons it rest ih =>
    intro acc hline
    cases it with
    | errItem m =>
      exact False.elim (hline (.errItem m) (List.mem_cons_self _ _))
    | line s =>
      have hrest : ∀ it ∈ rest, is_line_item it :=
        fun it hit => hline it (List.mem_cons_of_mem _ hit)
      by_cases hb : (py_strip s == "") = true
      · obtain ⟨pre, hpre, hid⟩ := ih acc hrest
        refine ⟨pre, ?_, hid⟩
        rw [show stream_loop rid model created (.line s :: rest) acc =
              stream_loop rid model created rest acc from by
            simp only [stream_loop]
            rw [if_pos hb]]
        exact hpre
      · obtain ⟨pre, hpre, hid⟩ := ih (acc ++ [parse_text_content s]) hrest
        cases hm : create_structured_response rid (parse_text_content s) model created with
        | some d =>
          refine ⟨format_sse_data (.json d) :: pre, ?_, ?_⟩
          · rw [show stream_loop rid model created (.line s :: rest) acc =
                  format_sse_data (.json d) ::
                    stream_loop rid model created rest
                      (acc ++ [parse_text_content s]) from by
                simp only [stream_loop]
                rw [if_neg hb]
                rw [hm]
                rfl]
            rw [hpre]
            rfl
          · intro f hf
            rcases List.mem_cons.mp hf with h | h
            · obtain ⟨x, l, hshape⟩ := structured_response_id_first rid _ model created d hm
              exact ⟨x, l, by rw [h, hshape]⟩
            · exact hid f h
        | none =>
          refine ⟨pre, ?_, hid⟩
          rw [show stream_loop rid model created (.line s :: rest) acc =
                stream_loop rid model created rest
                  (acc ++ [parse_text_content s]) from by
              simp only [stream_loop]
              rw [if_neg hb]
              rw [hm]
              rfl]
          exact hpre

/-- When a raising pull follows a run of clean lines, the loop output is a
run of `"id"`-first chunks followed by exactly the error frame. -/
theorem stream_loop_err (rid model : String) (created : Int) (msg : String) :
    ∀ (good tail : List StreamItem) (acc : List ParsedContent),
      (∀ it ∈ good, is_line_item it) →
      ∃ pre, stream_loop rid model created (good ++ .errItem msg :: tail) acc =
          pre ++ [format_sse_data (.json (error_body_json msg))] ∧
        ∀ f ∈ pre, is_id_frame f := by
  intro good
  induction good with
  | nil =>
    intro tail acc _
    refine ⟨[], ?_, fun f hf => absurd hf (List.not_mem_nil f)⟩
    simp only [List.nil_append]
    rfl
  | cons it rest ih =>
    intro tail acc hline
    cases it with
    | errItem m2 =>
      exact False.elim (hline (.errItem m2) (List.mem_cons_self _ _))
    | line s =>
      have hrest : ∀ it ∈ rest, is_line_item it :=
        fun it hit => hline it (List.mem_cons_of_mem _ hit)
      by_cases hb : (py_strip s == "") = true
      · obtain ⟨pre, hpre, hid⟩ := ih tail acc hrest
        refine ⟨pre, ?_, hid⟩
        rw [show stream_loop rid model created
              ((.line s :: rest) ++ .errItem msg :: tail) acc =
              stream_loop rid model created (rest ++ .errItem msg :: tail) acc from by
            simp only [List.cons_append, List.append_eq, stream_loop]
            rw [if_pos hb]]
        exact hpre
      · obtain ⟨pre, hpre, hid⟩ := ih tail (acc ++ [parse_text_content s]) hrest
        cases hm : create_structured_response rid (parse_text_content s) model created with
        | some d =>
          refine ⟨format_sse_data (.json d) :: pre, ?_, ?_⟩
          · rw [show stream_loop rid model created
                  ((.line s :: rest) ++ .errItem msg :: tail) acc =
                  format_sse_data (.json d) ::
                    stream_loop rid model created (rest ++ .errItem msg :: tail)
                      (acc ++ [parse_text_content s]) from by
                simp only [List.cons_append, List.append_eq, stream_loop]
                rw [if_neg hb]
                rw [hm]
                rfl]
            rw [hpre]
            rfl
          · intro f hf
            rcases List.mem_cons.mp hf with h | h
            · obtain ⟨x, l, hshape⟩ := structured_response_id_first rid _ model created d hm
              exact ⟨x, l, by rw [h, hshape]⟩
            · exact hid f h
        | none =>
          refine ⟨pre, ?_, hid⟩
          rw [show stream_loop rid model created
                ((.line s :: rest) ++ .errItem msg :: tail) acc =
                stream_loop rid model created (rest ++ .errItem msg :: tail)
                  (acc ++ [parse_text_content s]) from by
              simp only [List.cons_append, List.append_eq, stream_loop]
              rw [if_neg hb]
              rw [hm]
              rfl]
          exact hpre

/-- Claim C3: in streaming mode, if no pull from the backend iterator
raises, the output sequence ends with a chunk whose sole choice carries
`finish_reason = "stop"` followed by the literal terminal frame
`data: [DONE]\n\n`; if a pull raises after a run of clean lines, the
output ends with exactly one frame shaped over `error_body_json`
(`message` / `type = "streaming_error"` / `code = "stream_interrupted"`),
no earlier frame is error-shaped, and the `[DONE]` frame is never
emitted. -/
theorem c3_stream_termination (rid model : String) (created : Int)
    (items : List StreamItem) :
    (has_err_item items = false →
      ∃ pre, create_claude_stream rid model created items =
          pre ++ [format_sse_data (.json (stream_response_json rid model created
            none none (some "stop") true)), done_frame] ∧
        jget (stream_response_json rid model created none none (some "stop") true)
            "choices" =
          some (.jarr [choice_json (delta_json none none true) (some "stop") true]) ∧
        jget (choice_json (delta_json none none true) (some "stop") true)
            "finish_reason" = some (.jstr "stop")) ∧
    (∀ good msg tail, items = good ++ .errItem msg :: tail →
      (∀ it ∈ good, is_line_item it) →
      ∃ pre, create_claude_stream rid model created items =
          pre ++ [format_sse_data (.json (error_body_json msg))] ∧
        (∀ f ∈ pre, f ≠ format_sse_data (.json (error_body_json msg))) ∧
        done_frame ∉ create_claude_stream rid model created items) := by
  constructor
  · intro herr
    obtain ⟨pre, hpre, hid⟩ := stream_loop_clean rid model created items []
      (no_err_all_line items herr)
    refine ⟨format_sse_data (.json (stream_response_json rid model created
      (some "assistant") (some "") none true)) :: pre, ?_, ?_, ?_⟩
    · rw [show create_claude_stream rid model created items =
            format_sse_data (.json (stream_response_json rid model created
              (some "assistant") (some "") none true)) ::
              stream_loop rid model created items [] from rfl]
      rw [hpre]
      rfl
    · rfl
    · rfl
  · intro good msg tail hitems hgood
    obtain ⟨pre, hpre, hid⟩ := stream_loop_err rid model created msg good tail [] hgood
    have hout : create_claude_stream rid model created items =
        (format_sse_data (.json (stream_response_json rid model created
          (some "assistant") (some "") none true)) :: pre) ++
          [format_sse_data (.json (error_body_json msg))] := by
      rw [hitems]
      rw [show create_claude_stream rid model created
            (good ++ .errItem msg :: tail) =
            format_sse_data (.json (stream_response_json rid model created
              (some "assistant") (some "") none true)) ::
              stream_loop rid model created (good ++ .errItem msg :: tail) []
          from rfl]
      rw [hpre]
      rfl
    have hidall : ∀ f ∈ (format_sse_data (.json (stream_response_json rid model
        created (some "assistant") (some "") none true)) :: pre),
        is_id_frame f := by
      intro f hf
      rcases List.mem_cons.mp hf with h | h
      · exact ⟨_, _, h⟩
      · exact hid f h
    refine ⟨_, hout, ?_, ?_⟩
    · intro f hf
      exact id_frame_ne_error_frame f (hidall f hf) msg
    · intro hdone
      rw [hout] at hdone
      rcases List.mem_append.mp hdone with h | h
      · obtain ⟨x, l, hfx⟩ := hidall done_frame h
        exact obj_frame_ne_done _ hfx.symm
      · simp only [List.mem_cons, List.not_mem_nil, or_false] at h
        exact obj_frame_ne_done _ h.symm

theorem c3_witness :
    (∃ pre, create_claude_stream "r" "m" 0 [] = pre ++
        [format_sse_data (.json (stream_response_json "r" "m" 0 none none
          (some "stop") true)), done_frame] ∧
      jget (stream_response_json "r" "m" 0 none none (some "stop") true)
          "choices" =
        some (.jarr [choice_json (delta_json none none true) (some "stop") true]) ∧
      jget (choice_json (delta_json none none true) (some "stop") true)
          "finish_reason" = some (.jstr "stop")) ∧
    (∃ pre, create_claude_stream "r" "m" 0 [.errItem "boom"] = pre ++
        [format_sse_data (.json (error_body_json "boom"))] ∧
      (∀ f ∈ pre, f ≠ format_sse_data (.json (error_body_json "boom"))) ∧
      done_frame ∉ create_claude_stream "r" "m" 0 [.errItem "boom"]) := by
  constructor
  · exact (c3_stream_termination "r" "m" 0 []).1 (by decide)
  · exact (c3_stream_termination "r" "m" 0 [.errItem "boom"]).2 [] "boom" [] rfl
      (fun it hit => absurd hit (List.not_mem_nil it))

end CApi
